import Mathlib

/-!
# Verification of the Wexley real-time audio analysis pipeline

A shallow embedding of the Wexley audio analysis and reactive classification
core, together with theorems settling the frozen specification claims.

Numeric values are modelled as exact rationals (`ℚ`).  JavaScript numbers are
IEEE doubles; every arithmetic expression appearing in the claims is exact on
the inputs considered, so `ℚ` is a faithful model.  Transcendental functions
(`Math.sqrt`, `Math.log2`) have no exact rational counterpart and are passed
in as an abstract function bundle (`RealFns`); no claim depends on their
values.  Division by zero on `ℚ` yields `0`; the sole places where JavaScript
would instead produce `NaN`/`Infinity` are noted in comments and are outside
every claim's inputs.
-/

set_option maxRecDepth 4000

/-- Abstract bundle for the square root and base-2 logarithm used by the
source (`Math.sqrt`, `Math.log2`); they are irrational-valued and therefore
kept as parameters of the embedding. -/
structure RealFns where
  sqrt : ℚ → ℚ
  log2 : ℚ → ℚ

/-- The twelve pitch-class names, index 0 = C (shared constant `NOTES`). -/
def noteNames : List String :=
  ["C", "C#", "D", "D#", "E", "F"] ++ ["F#", "G", "G#", "A", "A#", "B"]

/-- JavaScript truncating remainder (`%` on numbers): sign follows the
dividend, e.g. `(-1) % 12 = -1`. -/
def jsMod (a b : ℤ) : ℤ := Int.tmod a b

/-- First index of the maximal element (JavaScript
`array.indexOf(Math.max(...array))`): ties resolve to the earliest index. -/
def idxOfMax (l : List ℚ) : ℕ :=
  (l.enum.foldl
    (fun (acc : ℚ × ℕ) (p : ℕ × ℚ) => if p.2 > acc.1 then (p.2, p.1) else acc)
    ((l.headD 0), 0)).2

namespace MusicAnalyzer

/-! ## `src/utils/musicAnalyzer.ts` -/

/-- Features returned by the external `Meyda.extract` call; each field may be
absent (the source applies `?? 0` / `?? []` defaults). -/
structure MeydaFeatures where
  rms : Option ℚ
  spectralCentroid : Option ℚ
  spectralRolloff : Option ℚ
  zcr : Option ℚ
  mfcc : Option (List ℚ)
  chroma : Option (List ℚ)
deriving DecidableEq

/-- The `while (powerOfTwo < size && powerOfTwo < MAX_BUFFER_SIZE) powerOfTwo *= 2`
loop of `ensurePowerOfTwo`.  The `0 < p` guard is an artifact of termination:
the source only ever enters the loop with `p = 1` and doubling keeps `p`
positive, so the guard never changes behaviour on reachable inputs. -/
def ptLoop (size : ℕ) (p : ℕ) : ℕ :=
  if h : 0 < p ∧ p < size ∧ p < 16384 then ptLoop size (2 * p) else p
termination_by 32768 - p
decreasing_by
  obtain ⟨h1, _h2, h3⟩ := h
  omega

/-- `ensurePowerOfTwo` from `createMusicAnalyzer`: resolves a requested buffer
size to a power of two, clamped to 16384, choosing between the two adjacent
powers of two by absolute distance (ties go to the larger). -/
def ensurePowerOfTwo (size : ℕ) : ℕ :=
  if size = 0 then 512
  else if size > 16384 then 16384
  else if size &&& (size - 1) = 0 then size
  else
    let powerOfTwo := ptLoop size 1
    let prevPowerOfTwo := powerOfTwo / 2
    if size - prevPowerOfTwo < powerOfTwo - size then prevPowerOfTwo
    else powerOfTwo

/-- `estimateTempo(zcr, spectralCentroid)`: linear ZCR-to-BPM map clamped into
`[60, 200]`.  (`spectralCentroid` is accepted but unused, as in the source.) -/
def estimateTempo (zcr _spectralCentroid : ℚ) : ℚ :=
  let baseRate := zcr * 60
  if baseRate < 60 then max 60 (baseRate * 2)
  else if baseRate > 200 then min 200 (baseRate / 2)
  else (round baseRate : ℤ)

/-- `estimateKey(chroma)`: the strongest chroma bin names the key. -/
def estimateKey (chroma : List ℚ) : String :=
  if chroma = [] then "C"
  else (noteNames.getD (idxOfMax chroma % 12) "C")

/-- `classifyGenre`: fixed decision table over tempo bands and the brightness
quotient `centroid / rolloff`.  (On `ℚ`, `x / 0 = 0`; JavaScript would give
`NaN`/`Infinity` for a zero rolloff — no claim touches that corner.) -/
def classifyGenre (spectralCentroid spectralRolloff tempo : ℚ) : String :=
  let brightness := spectralCentroid / spectralRolloff
  if tempo < 80 then (if brightness > 3/10 then "ballad" else "ambient")
  else if tempo < 120 then (if brightness > 4/10 then "pop" else "folk")
  else if tempo < 140 then (if brightness > 5/10 then "rock" else "blues")
  else (if brightness > 6/10 then "electronic" else "punk")

/-- `analyzeMood`: fixed decision table over RMS energy, tempo, and
`centroid / 1000` brightness. -/
def analyzeMood (spectralCentroid rms tempo : ℚ) : String :=
  let energy := rms
  let brightness := spectralCentroid / 1000
  if energy > 3/10 ∧ tempo > 120 then
    (if brightness > 1/2 then "energetic" else "aggressive")
  else if energy > 2/10 then
    (if brightness > 4/10 then "happy" else "confident")
  else
    (if brightness > 3/10 then "calm" else "melancholic")

/-- `detectInstruments(spectralCentroid, spectralRolloff, mfcc)` of
`musicAnalyzer.ts`: brightness-band labels plus a percussion hint from the
mean absolute MFCC value. -/
def detectInstruments (spectralCentroid spectralRolloff : ℚ)
    (mfcc : List ℚ) : List String :=
  let brightness := spectralCentroid / spectralRolloff
  let instruments :=
    if brightness > 6/10 then ["guitar", "piano"]
    else if brightness > 4/10 then ["vocals", "strings"]
    else ["bass", "drums"]
  if mfcc ≠ [] then
    let mfccVariance := (mfcc.map (|·|)).sum / mfcc.length
    if mfccVariance > 10 then instruments ++ ["percussion"] else instruments
  else instruments

/-- Result of `detectVoiceAndSinging`. -/
structure VoiceSing where
  isVoice : Bool
  isSinging : Bool
  confidence : ℚ
deriving DecidableEq

/-- `detectVoiceAndSinging({spectralCentroid, zcr, rms})`: the voice/singing
heuristic with additive confidence weights 0.4/0.3/0.3. -/
def detectVoiceAndSinging (spectralCentroid zcr rms : ℚ) : VoiceSing :=
  let voiceRange := spectralCentroid > 200 ∧ spectralCentroid < 2000
  let voiceZCR := zcr > 1/100 ∧ zcr < 3/10
  let hasEnergy := rms > 1/100
  let isVoice := voiceRange ∧ voiceZCR ∧ hasEnergy
  let isSinging := isVoice ∧ zcr < 15/100 ∧ rms > 5/100
  let confidence :=
    (if voiceRange then (4:ℚ)/10 else 0) +
    (if voiceZCR then (3:ℚ)/10 else 0) +
    (if hasEnergy then (3:ℚ)/10 else 0)
  ⟨decide isVoice, decide isSinging, confidence⟩

/-- `hasMusicalSpectrum`: spectral brightness sub-condition of the music
heuristic in `analyzeAudio`. -/
def hasMusicalSpectrum (spectralCentroid spectralRolloff : ℚ) : Bool :=
  decide (spectralCentroid > 100 ∧ spectralRolloff > 1000)

/-- `hasMusicalEnergy`: energy-floor sub-condition of the music heuristic. -/
def hasMusicalEnergy (rms : ℚ) : Bool :=
  decide (rms > 5/1000)

/-- `hasMusicalComplexity`: spectral-complexity sub-condition of the music
heuristic. -/
def hasMusicalComplexity (zcr : ℚ) : Bool :=
  decide (zcr > 1/1000)

/-- `isMusicDetected` as computed in `analyzeAudio`: requires that voice was
NOT detected, plus all three musical sub-conditions. -/
def isMusicDetected (rms spectralCentroid spectralRolloff zcr : ℚ) : Bool :=
  !(detectVoiceAndSinging spectralCentroid zcr rms).isVoice &&
    hasMusicalSpectrum spectralCentroid spectralRolloff &&
    hasMusicalEnergy rms && hasMusicalComplexity zcr

/-- `musicConfidence` as accumulated in `analyzeAudio`: fixed additive weights
0.4 / 0.3 / 0.2 / 0.1 for the satisfied sub-conditions. -/
def musicConfidence (rms spectralCentroid spectralRolloff zcr : ℚ) : ℚ :=
  (if hasMusicalSpectrum spectralCentroid spectralRolloff then (4:ℚ)/10 else 0) +
  (if hasMusicalEnergy rms then (3:ℚ)/10 else 0) +
  (if hasMusicalComplexity zcr then (2:ℚ)/10 else 0) +
  (if spectralRolloff > 5000 then (1:ℚ)/10 else 0)

/-- The full `MusicAnalysis` record returned by `analyzeAudio`. -/
structure MusicAnalysis where
  rms : ℚ
  spectralCentroid : ℚ
  spectralRolloff : ℚ
  zeroCrossingRate : ℚ
  tempo : ℚ
  key : String
  genre : String
  mood : String
  instruments : List String
  isVoice : Bool
  isSinging : Bool
  isMusicDetected : Bool
  confidence : ℚ
deriving DecidableEq

/-- The zero-filled default record `analyzeAudio` returns on empty input, on
`Meyda.extract` failure, and from its catch-all error handler. -/
def defaultMusicAnalysis : MusicAnalysis :=
  { rms := 0, spectralCentroid := 0, spectralRolloff := 0,
    zeroCrossingRate := 0, tempo := 120, key := "C", genre := "unknown",
    mood := "neutral", instruments := [], isVoice := false,
    isSinging := false, isMusicDetected := false, confidence := 0 }

/-- Nearest-neighbour decimation `resized[i] = data[Math.floor(i * step)]`
with `step = data.length / target`, used for downsampling. -/
def decimate (data : List ℚ) (target : ℕ) : List ℚ :=
  (List.range target).map fun i =>
    data.getD (Int.toNat ⌊(i * data.length : ℚ) / target⌋) 0

/-- `analyzeAudio(audioData, sampleRate)` of `createMusicAnalyzer`.  The
external `Meyda.extract` collaborator is a parameter `extract`; returning
`none` models both a `null` result and a thrown exception (the catch-all
returns the same default record). -/
def analyzeAudio (extract : List ℚ → Option MeydaFeatures)
    (audioData : List ℚ) (_sampleRate : ℚ) : MusicAnalysis :=
  if audioData = [] then defaultMusicAnalysis
  else
    -- Limit audio data size to 16384 samples, then fit to the power-of-two
    -- buffer size (downsample or zero-pad).
    let processed0 :=
      if audioData.length > 16384 then decimate audioData 16384 else audioData
    let bufferSize := ensurePowerOfTwo processed0.length
    let processed :=
      if processed0.length = bufferSize then processed0
      else if processed0.length > bufferSize then decimate processed0 bufferSize
      else processed0 ++ List.replicate (bufferSize - processed0.length) 0
    match extract processed with
    | none => defaultMusicAnalysis
    | some features =>
      let rms := features.rms.getD 0
      let spectralCentroid := features.spectralCentroid.getD 0
      let spectralRolloff := features.spectralRolloff.getD 0
      let zcr := features.zcr.getD 0
      let mfcc := features.mfcc.getD []
      let chroma := features.chroma.getD []
      let tempo := estimateTempo zcr spectralCentroid
      let key := estimateKey chroma
      let genre := classifyGenre spectralCentroid spectralRolloff tempo
      let mood := analyzeMood spectralCentroid rms tempo
      let instruments := detectInstruments spectralCentroid spectralRolloff mfcc
      let vs := detectVoiceAndSinging spectralCentroid zcr rms
      let music := isMusicDetected rms spectralCentroid spectralRolloff zcr
      let musicConf := musicConfidence rms spectralCentroid spectralRolloff zcr
      let finalConfidence := if music then max vs.confidence musicConf
                             else vs.confidence
      { rms := rms, spectralCentroid := spectralCentroid,
        spectralRolloff := spectralRolloff, zeroCrossingRate := zcr,
        tempo := tempo, key := key, genre := genre, mood := mood,
        instruments := instruments, isVoice := vs.isVoice,
        isSinging := vs.isSinging, isMusicDetected := music,
        confidence := finalConfidence }

end MusicAnalyzer

namespace MusicCompanion

/-! ## `src/utils/musicCompanion.ts` -/

/-- `AudioFeatures` (from `src/types/audio`), after the `?? 0` / `?? []`
defaults the companion applies on field access. -/
structure AudioFeatures where
  rms : ℚ
  zcr : ℚ
  spectralCentroid : ℚ
  spectralBandwidth : ℚ
  spectralRolloff : ℚ
  mfcc : List ℚ
  chroma : List ℚ
  timestamp : ℕ
deriving DecidableEq

inductive Harmony | consonant | dissonant | neutral
deriving DecidableEq

structure VoiceAnalysis where
  isVoiceDetected : Bool
  isSinging : Bool
  confidence : ℚ
  pitch : ℚ
  pitchStability : ℚ
  vocalRangeMin : ℚ
  vocalRangeMax : ℚ
  inKey : Bool
  harmony : Harmony
deriving DecidableEq

inductive MusicalStructure | verse | chorus | bridge | intro | outro | unknown
deriving DecidableEq

structure InstrumentAnalysis where
  instruments : List String
  confidence : ℚ
  chords : List String
  chordProgression : List String
  key : String
  tempo : ℚ
  timeSignature : String
  musicalStructure : MusicalStructure
deriving DecidableEq

inductive MusicType | instrumental | vocal | mixed
deriving DecidableEq

inductive Quality | excellent | good | needsWork
deriving DecidableEq

structure Overall where
  musicType : MusicType
  quality : Quality
  suggestions : List String
deriving DecidableEq

structure MusicCompanionAnalysis where
  voice : VoiceAnalysis
  instruments : InstrumentAnalysis
  overall : Overall
deriving DecidableEq

/-- Mutable instance state of the `MusicCompanion` class: the rolling pitch
and chord histories (`maxHistoryLength = 50`). -/
structure CompanionSt where
  pitchHistory : List ℚ
  chordHistory : List String
deriving DecidableEq

/-- `detectVoice(spectralCentroid, zcr, rms, mfcc)`. -/
def detectVoice (spectralCentroid zcr rms : ℚ) (mfcc : List ℚ) : Bool :=
  decide ((spectralCentroid > 200 ∧ spectralCentroid < 4000) ∧
    (zcr > 2/100 ∧ zcr < 3/10) ∧
    rms > 1/100 ∧
    (mfcc ≠ [] ∧ mfcc.headD 0 > -20))

/-- Autocorrelation over one candidate period:
`Σ_{i < n - period} a[i] * a[i + period]`. -/
def correlationAt (audioData : List ℚ) (period : ℕ) : ℚ :=
  ((List.range (audioData.length - period)).map
    (fun i => audioData.getD i 0 * audioData.getD (i + period) 0)).sum

/-- `extractPitch(audioData, sampleRate)`: simple autocorrelation pitch
detection over periods in `[⌊sr/800⌋, ⌊sr/80⌋)` also bounded by half the
frame length; the period of maximal positive correlation wins (first
maximum), else 0. -/
def extractPitch (audioData : List ℚ) (sampleRate : ℚ) : ℚ :=
  let minPeriod := (⌊sampleRate / 800⌋).toNat
  let maxPeriod := (⌊sampleRate / 80⌋).toNat
  let candidates := (List.range maxPeriod).filter
    (fun p => minPeriod ≤ p ∧ 2 * p < audioData.length)
  let best := candidates.foldl
    (fun (acc : ℕ × ℚ) p =>
      let c := correlationAt audioData p
      if c > acc.2 then (p, c) else acc)
    (0, 0)
  if best.1 > 0 then sampleRate / best.1 else 0

/-- `calculatePitchStability()`: `1 - stddev/mean` over the last 10 recorded
pitches, clamped below at 0; 0 until 5 pitches have been recorded.  (With a
zero mean, JavaScript propagates `NaN`; on `ℚ`, division by zero gives 0 —
that corner needs every recent pitch to be 0 and is outside all claims.) -/
def calculatePitchStability (rf : RealFns) (pitchHistory : List ℚ) : ℚ :=
  if pitchHistory.length < 5 then 0
  else
    let recent := pitchHistory.drop (pitchHistory.length - 10)
    let mean := recent.sum / (recent.length : ℚ)
    let variance :=
      (recent.map (fun p => (p - mean) * (p - mean))).sum / (recent.length : ℚ)
    let standardDeviation := rf.sqrt variance
    max 0 (1 - standardDeviation / mean)

/-- `detectSinging(pitchStability, zcr)`. -/
def detectSinging (pitchStability zcr : ℚ) : Bool :=
  decide (pitchStability > 7/10 ∧ zcr < 15/100)

/-- `calculateVocalRange()`: min/max of the positive recorded pitches.
(JavaScript yields `±Infinity` when no positive pitch exists; modelled as 0,
outside all claims.) -/
def calculateVocalRange (pitchHistory : List ℚ) : ℚ × ℚ :=
  if pitchHistory = [] then (0, 0)
  else
    let valid := pitchHistory.filter (fun p => p > 0)
    ((valid.min?).getD 0, (valid.max?).getD 0)

/-- Chroma test `chroma[i] > 0.3` under JavaScript indexing: an out-of-range
(possibly negative) index reads `undefined` and the comparison is false. -/
def chromaTestAt (chroma : List ℚ) (i : ℤ) : Bool :=
  if 0 ≤ i ∧ i < chroma.length then
    decide (chroma.getD i.toNat 0 > 3/10)
  else false

/-- `isVoiceInKey(pitch, chroma)`. -/
def isVoiceInKey (rf : RealFns) (pitch : ℚ) (chroma : List ℚ) : Bool :=
  if pitch = 0 ∨ chroma.length ≠ 12 then false
  else
    let noteIndex := jsMod (round (12 * rf.log2 (pitch / 440))) 12
    let normalizedIndex := jsMod (noteIndex + 9) 12
    chromaTestAt chroma normalizedIndex

/-- `analyzeHarmony(pitch, chroma)`. -/
def analyzeHarmony (rf : RealFns) (pitch : ℚ) (chroma : List ℚ) : Harmony :=
  if pitch = 0 ∨ chroma.length ≠ 12 then .neutral
  else
    let noteIndex := jsMod (round (12 * rf.log2 (pitch / 440))) 12
    let normalizedIndex := jsMod (noteIndex + 9) 12
    let hasConsonance := [0, 4, 7].any
      (fun interval => chromaTestAt chroma (jsMod (normalizedIndex + interval) 12))
    if hasConsonance then .consonant else .dissonant

/-- `calculateVoiceConfidence(spectralCentroid, zcr, rms)`: additive weights
0.4/0.3/0.3, capped at 1. -/
def calculateVoiceConfidence (spectralCentroid zcr rms : ℚ) : ℚ :=
  min 1
    ((if spectralCentroid > 200 ∧ spectralCentroid < 4000 then (4:ℚ)/10 else 0) +
     (if zcr > 2/100 ∧ zcr < 3/10 then (3:ℚ)/10 else 0) +
     (if rms > 1/100 then (3:ℚ)/10 else 0))

/-- `detectInstruments(spectralCentroid, spectralRolloff, rms)` of
`musicCompanion.ts`: band heuristics for guitar/piano/drums, falling back to
`['unknown']` when nothing matches. -/
def detectInstruments (spectralCentroid spectralRolloff rms : ℚ) :
    List String :=
  let instruments :=
    (if spectralCentroid > 800 ∧ spectralCentroid < 3000 ∧ rms > 2/100 then
      ["guitar"] else []) ++
    (if spectralCentroid > 500 ∧ spectralCentroid < 4000 ∧
        spectralRolloff > 2000 then ["piano"] else []) ++
    (if spectralRolloff > 8000 ∧ rms > 1/10 then ["drums"] else [])
  if instruments.length > 0 then instruments else ["unknown"]

/-- The root-selection scan of `detectChords`/`detectKey`: starting from
`(maxChroma, rootIndex) = (0, 0)`, strictly greater bins take over, so the
first maximal bin wins. -/
def rootScan (chroma : List ℚ) : ℚ × ℕ :=
  (List.range 12).foldl
    (fun (acc : ℚ × ℕ) i =>
      if chroma.getD i 0 > acc.1 then (chroma.getD i 0, i) else acc)
    (0, 0)

/-- `detectChords(chroma)` of `musicCompanion.ts`: triad detection around the
strongest chroma bin with energy threshold 0.3. -/
def detectChords (chroma : List ℚ) : List String :=
  if chroma.length ≠ 12 then []
  else
    let scan := rootScan chroma
    let maxChroma := scan.1
    let rootIndex := scan.2
    if maxChroma < 3/10 then []
    else
      let majorThird := (rootIndex + 4) % 12
      let perfectFifth := (rootIndex + 7) % 12
      if chroma.getD majorThird 0 > 3/10 ∧ chroma.getD perfectFifth 0 > 3/10 then
        [noteNames.getD rootIndex "C" ++ "maj"]
      else
        let minorThird := (rootIndex + 3) % 12
        if chroma.getD minorThird 0 > 3/10 ∧ chroma.getD perfectFifth 0 > 3/10 then
          [noteNames.getD rootIndex "C" ++ "min"]
        else [noteNames.getD rootIndex "C"]

/-- `detectKey(chroma)` of `musicCompanion.ts`. -/
def detectKey (chroma : List ℚ) : String :=
  if chroma.length ≠ 12 then "C"
  else noteNames.getD (rootScan chroma).2 "C"

/-- `estimateTempo(features)`: simplified constant. -/
def estimateTempo (_features : AudioFeatures) : ℚ := 120

/-- `analyzeChordProgression()`: last 4 chords once at least 4 are known. -/
def analyzeChordProgression (chordHistory : List String) : List String :=
  if chordHistory.length < 4 then []
  else chordHistory.drop (chordHistory.length - 4)

/-- `detectTimeSignature()`: simplified constant. -/
def detectTimeSignature : String := "4/4"

/-- `detectMusicalStructure()`: simplified constant. -/
def detectMusicalStructure : MusicalStructure := .unknown

/-- Substring test (JavaScript `String.prototype.includes`). -/
def strHasPrefix : List Char → List Char → Bool
  | _, [] => true
  | [], _ :: _ => false
  | a :: as, b :: bs => a == b && strHasPrefix as bs

/-- JavaScript `hay.includes(pat)`. -/
def strIncludes (hay pat : String) : Bool :=
  let rec go : List Char → Bool
    | [] => strHasPrefix [] pat.toList
    | a :: as => strHasPrefix (a :: as) pat.toList || go as
  go hay.toList

/-- `assessQuality(voice, instruments)`: additive score, `≥5` excellent,
`≥3` good, else needs work. -/
def assessQuality (voice : VoiceAnalysis) (instruments : InstrumentAnalysis) :
    Quality :=
  let score : ℕ :=
    (if voice.isVoiceDetected then
      (if voice.inKey then 2 else 0) +
      (if voice.harmony = .consonant then 2 else 0) +
      (if voice.pitchStability > 7/10 then 1 else 0)
     else 0) +
    (if instruments.chords.length > 0 then 1 else 0) +
    (if instruments.key ≠ "C" then 1 else 0)
  if score ≥ 5 then .excellent else if score ≥ 3 then .good else .needsWork

/-- `generateSuggestions(voice, instruments)`: fixed rule list with a generic
fallback, never empty. -/
def generateSuggestions (voice : VoiceAnalysis)
    (instruments : InstrumentAnalysis) : List String :=
  let suggestions :=
    (if voice.isVoiceDetected then
      (if !voice.inKey then
        ["Try singing in the key of " ++ instruments.key] else []) ++
      (if voice.harmony = .dissonant then
        ["Your voice is creating some dissonance - try adjusting your pitch"]
       else []) ++
      (if voice.pitchStability < 1/2 then
        ["Work on pitch stability for better singing"] else [])
     else []) ++
    (if instruments.chordProgression.length > 2 then
      let lastChord := (instruments.chordProgression.getLast?).getD ""
      if lastChord ≠ "" ∧ !strIncludes lastChord instruments.key then
        ["Try resolving to " ++ instruments.key ++ " for a stronger ending"]
      else []
     else [])
  if suggestions = [] then ["Sounds great! Keep it up!"] else suggestions

/-- The all-false `VoiceAnalysis` returned when no voice is detected. -/
def noVoice : VoiceAnalysis :=
  { isVoiceDetected := false, isSinging := false, confidence := 0, pitch := 0,
    pitchStability := 0, vocalRangeMin := 0, vocalRangeMax := 0,
    inKey := false, harmony := .neutral }

/-- `analyzeVoice(audioData, features, sampleRate)`: voice detection plus
pitch bookkeeping; returns the analysis and the updated instance state. -/
def analyzeVoice (rf : RealFns) (st : CompanionSt) (audioData : List ℚ)
    (features : AudioFeatures) (sampleRate : ℚ) :
    VoiceAnalysis × CompanionSt :=
  let spectralCentroid := features.spectralCentroid
  let zcr := features.zcr
  let rms := features.rms
  let mfcc := features.mfcc
  if !detectVoice spectralCentroid zcr rms mfcc then (noVoice, st)
  else
    let pitch := extractPitch audioData sampleRate
    let h1 := st.pitchHistory ++ [pitch]
    let h2 := if h1.length > 50 then h1.tail else h1
    let pitchStability := calculatePitchStability rf h2
    let isSinging := detectSinging pitchStability zcr
    let vocalRange := calculateVocalRange h2
    let inKey := isVoiceInKey rf pitch features.chroma
    let harmony := analyzeHarmony rf pitch features.chroma
    ({ isVoiceDetected := true, isSinging := isSinging,
       confidence := calculateVoiceConfidence spectralCentroid zcr rms,
       pitch := pitch, pitchStability := pitchStability,
       vocalRangeMin := vocalRange.1, vocalRangeMax := vocalRange.2,
       inKey := inKey, harmony := harmony },
     { st with pitchHistory := h2 })

/-- `analyzeInstruments(features)`: instrument labels, chords, key, and the
chord-history bookkeeping. -/
def analyzeInstruments (st : CompanionSt) (features : AudioFeatures) :
    InstrumentAnalysis × CompanionSt :=
  let chroma := features.chroma
  let instruments :=
    detectInstruments features.spectralCentroid features.spectralRolloff
      features.rms
  let chords := detectChords chroma
  let key := detectKey chroma
  let tempo := estimateTempo features
  let ch1 :=
    if chords ≠ [] then
      let pushed := st.chordHistory ++ [chords.headD ""]
      if pushed.length > 50 then pushed.tail else pushed
    else st.chordHistory
  let chordProgression := analyzeChordProgression ch1
  ({ instruments := instruments, confidence := 8/10, chords := chords,
     chordProgression := chordProgression, key := key, tempo := tempo,
     timeSignature := detectTimeSignature,
     musicalStructure := detectMusicalStructure },
   { st with chordHistory := ch1 })

/-- `analyzeOverall(voice, instruments)`: music type, quality, suggestions. -/
def analyzeOverall (voice : VoiceAnalysis)
    (instruments : InstrumentAnalysis) : Overall :=
  let musicType : MusicType :=
    if voice.isVoiceDetected ∧ instruments.instruments.length > 0 then .mixed
    else if voice.isVoiceDetected then .vocal
    else .instrumental
  { musicType := musicType, quality := assessQuality voice instruments,
    suggestions := generateSuggestions voice instruments }

/-- `analyzePerformance(audioData, features, sampleRate)`: the top-level
companion composition. -/
def analyzePerformance (rf : RealFns) (st : CompanionSt) (audioData : List ℚ)
    (features : AudioFeatures) (sampleRate : ℚ) :
    MusicCompanionAnalysis × CompanionSt :=
  let va := analyzeVoice rf st audioData features sampleRate
  let ia := analyzeInstruments va.2 features
  ({ voice := va.1, instruments := ia.1,
     overall := analyzeOverall va.1 ia.1 }, ia.2)

end MusicCompanion

namespace AudioProcessor

/-! ## `createAudioProcessor` in the audio-processing store module -/

open MusicCompanion (AudioFeatures)

/-- Raw (pre-default) features from `Meyda.extract` as consumed by
`extractFeatures`; `none` fields model absent values. -/
structure RawFeatures where
  rms : Option ℚ
  zcr : Option ℚ
  spectralCentroid : Option ℚ
  spectralRolloff : Option ℚ
  mfcc : Option (List ℚ)
  chroma : Option (List ℚ)
deriving DecidableEq

/-- `calculateSpectralBandwidth(audioData)` of `createFeatureExtractor`:
iterates `i < fftSize / 2` bins (`fftSize = audioData.length`, real division,
so `⌈length / 2⌉` iterations), maps bin `i` to the frequency
`(i / (fftSize / 2)) * nyquist`, and returns the magnitude-weighted sum of
frequencies divided by the total magnitude — falling back to 0 when the total
magnitude is 0. -/
def calculateSpectralBandwidth (sampleRate : ℚ) (audioData : List ℚ) : ℚ :=
  let fftSize := audioData.length
  let nyquist := sampleRate / 2
  let bins := List.range ((fftSize + 1) / 2)
  let weightedSum :=
    (bins.map (fun (i : ℕ) =>
      ((i : ℚ) / ((fftSize : ℚ) / 2)) * nyquist * |audioData.getD i 0|)).sum
  let magnitudeSum := (bins.map (fun i => |audioData.getD i 0|)).sum
  if magnitudeSum > 0 then weightedSum / magnitudeSum else 0

/-- `extractFeatures(audioData, audioContext)`: returns `null` when Meyda is
unavailable, when `Meyda.extract` yields no features, or when it throws
(modelled by `extract` returning `none`); otherwise fills defaults and adds
the locally computed spectral bandwidth. -/
def extractFeatures (meydaAvailable : Bool)
    (extract : List ℚ → Option RawFeatures) (sampleRate : ℚ)
    (audioData : List ℚ) (now : ℕ) : Option AudioFeatures :=
  if !meydaAvailable then none
  else
    match extract audioData with
    | none => none
    | some f =>
      some { rms := f.rms.getD 0, zcr := f.zcr.getD 0,
             spectralCentroid := f.spectralCentroid.getD 0,
             spectralBandwidth := calculateSpectralBandwidth sampleRate audioData,
             spectralRolloff := f.spectralRolloff.getD 0,
             mfcc := f.mfcc.getD [], chroma := f.chroma.getD [],
             timestamp := now }

/-- `detectChords(chroma)` of `createAudioAnalyzer` (the simplified per-tick
variant): any three bins above 0.3 yield a major chord on the lowest active
bin; otherwise no chord. -/
def detectChordsSimple (chroma : List ℚ) : List String :=
  if chroma.length ≠ 12 then []
  else
    let activeNotes :=
      ((List.range 12).filter (fun i => chroma.getD i 0 > 3/10))
    if activeNotes.length ≥ 3 then
      [noteNames.getD (activeNotes.headD 0) "C" ++ "maj"]
    else []

/-- `detectKey(chroma)` of `src/utils/music.ts`: correlation of the rotated
chroma against a fixed C-major profile; strict improvement updates, starting
from `('C', 0)`.  (Out-of-range chroma reads are modelled as 0; Meyda chroma
always has 12 bins.) -/
def detectKeyProfile (chroma : List ℚ) : String :=
  let profile : List ℚ := [1, 0, 1, 0, 1, 1, 0, 1, 0, 1, 0, 1]
  (((List.range 12).foldl
    (fun (acc : String × ℚ) index =>
      let score :=
        ((List.range 12).map (fun i =>
          chroma.getD ((i + index) % 12) 0 * profile.getD i 0)).sum
      if score > acc.2 then (noteNames.getD index "C", score) else acc)
    ("C", 0))).1

/-- The per-tick `AudioAnalysis` snapshot. -/
structure AudioAnalysis where
  pitch : ℚ
  volume : ℚ
  tempo : ℚ
  key : String
  chords : List String
  spectralCentroid : ℚ
  spectralRolloff : ℚ
  mfcc : List ℚ
  timestamp : ℕ
deriving DecidableEq

/-- `calculateRMS(data)`; the square root is the abstract `RealFns.sqrt`. -/
def calculateRMS (rf : RealFns) (data : List ℚ) : ℚ :=
  rf.sqrt ((data.map (fun v => v * v)).sum / (data.length : ℚ))

/-- `analyzeAudio(timeData, features)` of `createAudioAnalyzer`: derives the
per-tick snapshot; `pitch` is the (possibly zero) spectral centroid, later
overwritten by the stabilizer. -/
def analyzeAudio (rf : RealFns) (timeData : List ℚ)
    (features : AudioFeatures) (now : ℕ) : AudioAnalysis :=
  let rms := if features.rms ≠ 0 then features.rms else calculateRMS rf timeData
  let volume := max 0 (min 1 (rms * 10))
  let pitch := features.spectralCentroid
  let key := if features.chroma.length > 0 then detectKeyProfile features.chroma
             else "C"
  let chords := detectChordsSimple features.chroma
  { pitch := pitch, volume := volume, tempo := 120, key := key,
    chords := chords, spectralCentroid := features.spectralCentroid,
    spectralRolloff := features.spectralRolloff, mfcc := features.mfcc,
    timestamp := now }

/-- Pitch-stabilizer state of `createAudioProcessor`
(`pitchHistory`, `lastStablePitch`). -/
structure SmoothSt where
  pitchHistory : List ℚ
  lastStablePitch : Option ℚ
deriving DecidableEq

/-- The stabilizer window after recording a positive pitch: push, then drop
the oldest entry once more than 5 are held. -/
def windowAfter (history : List ℚ) (p : ℚ) : List ℚ :=
  let pushed := history ++ [p]
  if pushed.length > 5 then pushed.tail else pushed

/-- Ascending stable sort, JavaScript `[...h].sort((a, b) => a - b)`. -/
def sortAsc (l : List ℚ) : List ℚ := l.insertionSort (· ≤ ·)

/-- The window median used by the stabilizer:
`sorted[Math.floor(sorted.length / 2)]`. -/
def medianOf (l : List ℚ) : ℚ := (sortAsc l).getD (l.length / 2) 0

/-- Result of one stabilizer tick. -/
structure TickResult where
  state : SmoothSt
  analysisEmitted : Option AudioAnalysis
  featuresEmitted : Option AudioFeatures
deriving DecidableEq

/-- One iteration of the update path inside `processAudio` (the `shouldUpdate`
branch): feature extraction already resolved to `featuresOpt`; on success the
features callback fires, then the pitch stabilizer decides whether an
`AudioAnalysis` snapshot is pushed.  `analysisEmitted` / `featuresEmitted`
record the callback invocations of this tick. -/
def processAudioTick (rf : RealFns) (s : SmoothSt)
    (featuresOpt : Option AudioFeatures) (timeData : List ℚ) (now : ℕ) :
    TickResult :=
  match featuresOpt with
  | none => ⟨s, none, none⟩
  | some features =>
    let analysis := analyzeAudio rf timeData features now
    if analysis.pitch > 0 then
      let window := windowAfter s.pitchHistory analysis.pitch
      let medianPitch := medianOf window
      match s.lastStablePitch with
      | none =>
        ⟨⟨window, some medianPitch⟩,
         some { analysis with pitch := medianPitch }, some features⟩
      | some last =>
        if |medianPitch - last| / last > 1/10 then
          ⟨⟨window, some medianPitch⟩,
           some { analysis with pitch := medianPitch }, some features⟩
        else ⟨⟨window, some last⟩, none, some features⟩
    else ⟨⟨[], none⟩, some analysis, some features⟩

/-- The number of Nyquist-limited bins `calculateSpectralBandwidth` visits:
`i < audioData.length / 2` with real division, i.e. `⌈length / 2⌉` bins. -/
def nyquistBinCount (n : ℕ) : ℕ := (n + 1) / 2

/-- The frequency the source assigns to bin `i` of an `n`-bin frame:
`(i / (n / 2)) * nyquist`. -/
def binFrequency (sampleRate : ℚ) (n : ℕ) (i : ℕ) : ℚ :=
  ((i : ℚ) / ((n : ℚ) / 2)) * (sampleRate / 2)

/-- Total magnitude over the Nyquist-limited bins. -/
def totalMagnitude (audioData : List ℚ) : ℚ :=
  ((List.range (nyquistBinCount audioData.length)).map
    (fun i => |audioData.getD i 0|)).sum

/-- Magnitude-weighted sum of bin frequencies (the numerator of the first
moment). -/
def weightedFrequencySum (sampleRate : ℚ) (audioData : List ℚ) : ℚ :=
  ((List.range (nyquistBinCount audioData.length)).map
    (fun i => binFrequency sampleRate audioData.length i * |audioData.getD i 0|)).sum

/-- Modelled from the spec: "Spectral bandwidth computed as the
magnitude-weighted second moment of frequency around the spectral centroid
over the first half of the frequency bins (Nyquist-limited), falling back to
0 when total magnitude is 0."  Stated over the same bins and frequencies as
the source so that the two can be compared. -/
def specSecondMomentBandwidth (sampleRate : ℚ) (audioData : List ℚ) : ℚ :=
  if totalMagnitude audioData > 0 then
    ((List.range (nyquistBinCount audioData.length)).map
      (fun i => |audioData.getD i 0| *
        (binFrequency sampleRate audioData.length i -
          weightedFrequencySum sampleRate audioData / totalMagnitude audioData) ^ 2)).sum /
      totalMagnitude audioData
  else 0

end AudioProcessor

namespace AvatarStore

/-! ## `setEmotion` of the avatar store (`Avatar3D.tsx` companion store) -/

/-- The `CompanionEmotion` union type. -/
inductive CompanionEmotion
  | neutral | excited | listening | thinking | dancing | suggesting
  | speaking | processing | understanding | empathetic | curious
  | helpful | encouraging | celebrating | concerned | focused
deriving DecidableEq

open CompanionEmotion

/-- `animationMap`: emotion-to-animation table (values from
`AVATAR_ANIMATIONS`). -/
def animationMap : CompanionEmotion → String
  | neutral => "idle"
  | excited => "excited"
  | listening => "listening"
  | thinking => "thinking"
  | dancing => "dancing"
  | suggesting => "suggesting"
  | speaking => "excited"
  | processing => "thinking"
  | understanding => "listening"
  | empathetic => "idle"
  | curious => "listening"
  | helpful => "suggesting"
  | encouraging => "excited"
  | celebrating => "dancing"
  | concerned => "thinking"
  | focused => "listening"

/-- What a scheduled timeout will do when it fires: apply a pending emotion,
or auto-return to `listening`/`neutral`. -/
inductive TimerKind
  | pendingFire (candidate : CompanionEmotion)
  | autoReturn
deriving DecidableEq

/-- A scheduled timeout: its fire time and its callback kind. -/
structure Timer where
  fireAt : ℕ
  kind : TimerKind
deriving DecidableEq

/-- The store fields `setEmotion` touches.  `emotionTimeout = none` means no
timer is scheduled (a cleared or fired timeout). -/
structure AvatarSt where
  emotion : CompanionEmotion
  currentAnimation : String
  lastEmotionChange : ℕ
  emotionTimeout : Option Timer
  pendingEmotion : Option CompanionEmotion
deriving DecidableEq

/-- `MIN_EMOTION_DURATION` (3 seconds). -/
def minEmotionDuration : ℕ := 3000

/-- `setEmotion(emotion, force)` at wall-clock time `now` (`Date.now()`).
Time is monotone in a session, so `ℕ` subtraction matches the JavaScript
`now - lastEmotionChange`. -/
def setEmotion (s : AvatarSt) (now : ℕ) (emotion : CompanionEmotion)
    (force : Bool) : AvatarSt :=
  if s.emotion = emotion ∧ !force then s
  else
    -- clearTimeout on any existing timeout
    let timeSinceLastChange := now - s.lastEmotionChange
    if timeSinceLastChange ≥ minEmotionDuration ∨ force ∨
        s.lastEmotionChange = 0 then
      { emotion := emotion,
        currentAnimation := animationMap emotion,
        lastEmotionChange := now,
        pendingEmotion := none,
        emotionTimeout :=
          if emotion ≠ listening ∧ emotion ≠ neutral then
            some ⟨now + minEmotionDuration, .autoReturn⟩
          else none }
    else
      let remainingTime := minEmotionDuration - timeSinceLastChange
      { s with pendingEmotion := some emotion,
               emotionTimeout := some ⟨now + remainingTime, .pendingFire emotion⟩ }

/-- Firing the scheduled timeout (if any) at its fire time.  A pending fire
re-enters `setEmotion` with `force = true` only if its candidate still
occupies the pending slot; the auto-return samples the audio store's
`isRecording` flag at fire time. -/
def fireTimer (s : AvatarSt) (isRecording : Bool) : AvatarSt :=
  match s.emotionTimeout with
  | none => s
  | some t =>
    match t.kind with
    | .pendingFire candidate =>
      if s.pendingEmotion = some candidate then
        setEmotion { s with emotionTimeout := none } t.fireAt candidate true
      else { s with emotionTimeout := none }
    | .autoReturn =>
      setEmotion { s with emotionTimeout := none } t.fireAt
        (if isRecording then listening else neutral) true

end AvatarStore

namespace Vad

/-! ## Voice-activity hysteresis gate

The recording gate of the `RealtimeChat` voice-activity effect and of
`checkAudioLevel` in the realtime store.  Both call sites share this machine;
they instantiate `(threshold, timeout)` as `(0.15, 2000 ms)` and
`(25, 1500 ms)` respectively. -/

/-- Gate state: whether a segment recording is active and the pending silence
timer's fire time (if one is scheduled). -/
structure VadSt where
  recording : Bool
  timer : Option ℕ
deriving DecidableEq

/-- Externally visible boundary events: start of a recording segment, and the
utterance boundary (stop of a recording segment). -/
inductive VadEvent
  | start (t : ℕ)
  | stop (t : ℕ)
deriving DecidableEq

/-- The silence timeout callback, due at time `tf`: examined whenever time
reaches `t ≥ tf`.  It stops the recording only if one is still active. -/
def vadFire (s : VadSt) (t : ℕ) : VadSt × List VadEvent :=
  match s.timer with
  | none => (s, [])
  | some tf =>
    if tf ≤ t then
      if s.recording then (⟨false, none⟩, [.stop tf])
      else (⟨s.recording, none⟩, [])
    else (s, [])

/-- Processing one volume sample, mirroring the three branches of the
source: start recording (clearing any silence timer), arm the silence timer,
or cancel the silence timer on resumed voice. -/
def vadSample (threshold : ℚ) (timeout : ℕ) (s : VadSt) (t : ℕ) (v : ℚ) :
    VadSt × List VadEvent :=
  let isVoiceActive := v > threshold
  if isVoiceActive ∧ !s.recording then (⟨true, none⟩, [.start t])
  else if ¬isVoiceActive ∧ s.recording then
    match s.timer with
    | none => (⟨true, some (t + timeout)⟩, [])
    | some _ => (s, [])
  else if isVoiceActive ∧ s.recording ∧ s.timer.isSome then (⟨true, none⟩, [])
  else (s, [])

/-- One observation step at time `t`: any due silence timer fires first, then
the sample is processed. -/
def vadStep (threshold : ℚ) (timeout : ℕ) (s : VadSt) (t : ℕ) (v : ℚ) :
    VadSt × List VadEvent :=
  let fired := vadFire s t
  let sampled := vadSample threshold timeout fired.1 t v
  (sampled.1, fired.2 ++ sampled.2)

/-- Run the gate over a timestamped volume sequence, collecting the emitted
boundary events in order. -/
def vadRun (threshold : ℚ) (timeout : ℕ) (s : VadSt) :
    List (ℕ × ℚ) → VadSt × List VadEvent
  | [] => (s, [])
  | sample :: rest =>
    let r := vadStep threshold timeout s sample.1 sample.2
    let rr := vadRun threshold timeout r.1 rest
    (rr.1, r.2 ++ rr.2)

/-- Letting wall-clock time advance to `T` with no further samples: a due
silence timer fires. -/
def vadFlush (s : VadSt) (T : ℕ) : VadSt × List VadEvent := vadFire s T

end Vad

/-- A concrete instantiation of the abstract real-valued functions, used
only to exercise theorems on concrete inputs. -/
def zeroFns : RealFns := ⟨fun _ => 0, fun _ => 0⟩

/-! ## Claim theorems -/

section Claims

open MusicCompanion in
/-- C4: for every 12-bin chroma vector, `detectChords` returns `[root+"maj"]`
when the strongest bin (the root) exceeds the 0.3 threshold and both its
major-third bin (`(root+4) mod 12`) and perfect-fifth bin (`(root+7) mod 12`)
also exceed it; `[root+"min"]` when the minor-third and perfect-fifth bins
exceed it instead; only the root note when neither triad is confirmed; and no
chord when even the root fails the threshold.  Chroma with 1.0 at indices
0, 4, 7 and 0 elsewhere yields exactly `["Cmaj"]`; chroma with 1.0 at index 0
and 0.1 elsewhere yields exactly `["C"]`. -/
theorem detectChords_triads :
    (∀ chroma : List ℚ, chroma.length = 12 →
      ((rootScan chroma).1 > 3/10 →
        ((chroma.getD (((rootScan chroma).2 + 4) % 12) 0 > 3/10 ∧
          chroma.getD (((rootScan chroma).2 + 7) % 12) 0 > 3/10) →
          detectChords chroma =
            [noteNames.getD (rootScan chroma).2 "C" ++ "maj"]) ∧
        (¬(chroma.getD (((rootScan chroma).2 + 4) % 12) 0 > 3/10 ∧
           chroma.getD (((rootScan chroma).2 + 7) % 12) 0 > 3/10) →
         (chroma.getD (((rootScan chroma).2 + 3) % 12) 0 > 3/10 ∧
          chroma.getD (((rootScan chroma).2 + 7) % 12) 0 > 3/10) →
          detectChords chroma =
            [noteNames.getD (rootScan chroma).2 "C" ++ "min"]) ∧
        (¬(chroma.getD (((rootScan chroma).2 + 4) % 12) 0 > 3/10 ∧
           chroma.getD (((rootScan chroma).2 + 7) % 12) 0 > 3/10) →
         ¬(chroma.getD (((rootScan chroma).2 + 3) % 12) 0 > 3/10 ∧
           chroma.getD (((rootScan chroma).2 + 7) % 12) 0 > 3/10) →
          detectChords chroma = [noteNames.getD (rootScan chroma).2 "C"])) ∧
      ((rootScan chroma).1 < 3/10 → detectChords chroma = [])) ∧
    detectChords [1, 0, 0, 0, 1, 0, 0, 1, 0, 0, 0, 0] = ["Cmaj"] ∧
    detectChords
      [1, 1/10, 1/10, 1/10, 1/10, 1/10, 1/10, 1/10, 1/10, 1/10, 1/10, 1/10] =
      ["C"] := by
  refine ⟨fun chroma hlen => ?_, ?_, ?_⟩
  · have hne : ¬(chroma.length ≠ 12) := by simp [hlen]
    refine ⟨fun hroot => ⟨fun hmaj => ?_, fun hmaj hmin => ?_,
      fun hmaj hmin => ?_⟩, fun hroot => ?_⟩ <;>
      simp only [detectChords, if_neg hne]
    · rw [if_neg (not_lt.mpr (le_of_lt hroot)), if_pos hmaj]
    · rw [if_neg (not_lt.mpr (le_of_lt hroot)), if_neg hmaj, if_pos hmin]
    · rw [if_neg (not_lt.mpr (le_of_lt hroot)), if_neg hmaj, if_neg hmin]
    · rw [if_pos hroot]
  · have hrange : List.range 12 = [0,1,2,3,4,5,6,7,8,9,10,11] := by rfl
    have happ : "C" ++ "maj" = "Cmaj" := rfl
    norm_num [detectChords, rootScan, hrange, noteNames, happ]
  · have hrange : List.range 12 = [0,1,2,3,4,5,6,7,8,9,10,11] := by rfl
    norm_num [detectChords, rootScan, hrange, noteNames]

/-- Witness for C4: the theorem applied at the concrete C-major chroma,
discharging its hypotheses there. -/
theorem detectChords_triads_witness :
    MusicCompanion.detectChords [1, 0, 0, 0, 1, 0, 0, 1, 0, 0, 0, 0] =
      ["C" ++ "maj"] := by
  have h := (detectChords_triads.1
    [1, 0, 0, 0, 1, 0, 0, 1, 0, 0, 0, 0] (by rfl)).1
  have hrange : List.range 12 = [0,1,2,3,4,5,6,7,8,9,10,11] := by rfl
  have hscan : MusicCompanion.rootScan [1, 0, 0, 0, 1, 0, 0, 1, 0, 0, 0, 0] =
      (1, 0) := by
    norm_num [MusicCompanion.rootScan, hrange]
  rw [hscan] at h
  have h2 := (h (by norm_num)).1 (by norm_num)
  simpa [noteNames] using h2

open MusicCompanion in
/-- C10: `analyzePerformance` always returns a non-empty instruments list
(falling back to `["unknown"]`), so whenever a voice is detected the overall
music type is `mixed`, and `vocal` is never produced. -/
theorem analyzePerformance_never_vocal (rf : RealFns) (st : CompanionSt)
    (audioData : List ℚ) (features : AudioFeatures) (sampleRate : ℚ) :
    (analyzePerformance rf st audioData features sampleRate).1.instruments.instruments ≠ [] ∧
    ((analyzePerformance rf st audioData features sampleRate).1.voice.isVoiceDetected = true →
      (analyzePerformance rf st audioData features sampleRate).1.overall.musicType =
        MusicType.mixed) ∧
    (analyzePerformance rf st audioData features sampleRate).1.overall.musicType ≠
      MusicType.vocal := by
  have key : ∀ l : List String, (if l.length > 0 then l else ["unknown"]) ≠ [] := by
    intro l
    split
    · next h => exact List.ne_nil_of_length_pos h
    · simp
  have hinstr : ∀ a b c : ℚ, detectInstruments a b c ≠ [] := by
    intro a b c
    simp only [detectInstruments]
    exact key _
  have hv1 : (analyzePerformance rf st audioData features sampleRate).1.voice =
      (analyzeVoice rf st audioData features sampleRate).1 := by
    simp [analyzePerformance]
  have hi1 :
      (analyzePerformance rf st audioData features sampleRate).1.instruments =
      (analyzeInstruments (analyzeVoice rf st audioData features sampleRate).2
        features).1 := by
    simp [analyzePerformance]
  have ho1 : (analyzePerformance rf st audioData features sampleRate).1.overall =
      analyzeOverall (analyzeVoice rf st audioData features sampleRate).1
        (analyzeInstruments (analyzeVoice rf st audioData features sampleRate).2
          features).1 := by
    simp [analyzePerformance]
  have hinstr2 :
      (analyzeInstruments (analyzeVoice rf st audioData features sampleRate).2
        features).1.instruments =
      detectInstruments features.spectralCentroid features.spectralRolloff
        features.rms := by
    simp [analyzeInstruments]
  have hlen : (analyzeInstruments (analyzeVoice rf st audioData features
      sampleRate).2 features).1.instruments.length > 0 := by
    rw [hinstr2]
    exact List.length_pos.mpr (hinstr _ _ _)
  refine ⟨?_, ?_, ?_⟩
  · rw [hi1, hinstr2]
    exact hinstr _ _ _
  · intro hvoice
    rw [hv1] at hvoice
    rw [ho1]
    simp only [analyzeOverall]
    rw [if_pos ⟨hvoice, hlen⟩]
  · rw [ho1]
    simp only [analyzeOverall]
    by_cases hv : (analyzeVoice rf st audioData features
        sampleRate).1.isVoiceDetected = true
    · rw [if_pos ⟨hv, hlen⟩]
      simp
    · rw [if_neg (fun hc => hv hc.1), if_neg hv]
      simp

open AudioProcessor in
/-- C6 (corrected): `calculateSpectralBandwidth` equals the magnitude-weighted
FIRST moment of frequency (the spectral-centroid formula) over the
Nyquist-limited first half of the bins, and equals 0 whenever the total
magnitude over those bins is 0.  (The claimed second moment around the
centroid is refuted by `spectralBandwidth_not_secondMoment`.) -/
theorem spectralBandwidth_firstMoment (sampleRate : ℚ) (audioData : List ℚ) :
    calculateSpectralBandwidth sampleRate audioData =
      (if totalMagnitude audioData > 0 then
        weightedFrequencySum sampleRate audioData / totalMagnitude audioData
      else 0) ∧
    (totalMagnitude audioData = 0 →
      calculateSpectralBandwidth sampleRate audioData = 0) := by
  have h : calculateSpectralBandwidth sampleRate audioData =
      (if totalMagnitude audioData > 0 then
        weightedFrequencySum sampleRate audioData / totalMagnitude audioData
      else 0) := by
    simp only [calculateSpectralBandwidth, totalMagnitude, weightedFrequencySum,
      binFrequency, nyquistBinCount]
  refine ⟨h, fun h0 => ?_⟩
  rw [h, h0]
  norm_num

open AudioProcessor in
/-- Counterexample for C6: on the frame `[1, 1, 0, 0]` at sample rate 4 the
source computes 1/2 (the mean frequency), while the spec's second moment
around the centroid is 1/4 — the claimed formula does not match the code. -/
theorem spectralBandwidth_not_secondMoment :
    calculateSpectralBandwidth 4 [1, 1, 0, 0] = 1/2 ∧
    specSecondMomentBandwidth 4 [1, 1, 0, 0] = 1/4 ∧
    calculateSpectralBandwidth 4 [1, 1, 0, 0] ≠
      specSecondMomentBandwidth 4 [1, 1, 0, 0] := by
  have hrange : List.range 2 = [0, 1] := by rfl
  have h1 : calculateSpectralBandwidth 4 [1, 1, 0, 0] = 1/2 := by
    norm_num [calculateSpectralBandwidth, hrange]
  have h2 : specSecondMomentBandwidth 4 [1, 1, 0, 0] = 1/4 := by
    norm_num [specSecondMomentBandwidth, totalMagnitude, weightedFrequencySum,
      binFrequency, nyquistBinCount, hrange]
  refine ⟨h1, h2, ?_⟩
  rw [h1, h2]
  norm_num

/-- C8 (corrected): the audio-processing store's feature extractor returns
`null` ("unavailable") when Meyda is missing or extraction fails, and the
analysis tick skips silently (no callbacks fire) on a failed extraction; but
`musicAnalyzer.analyzeAudio` instead returns the zero-filled default analysis
record on empty input and on extraction failure (see
`analyzeAudio_returns_default`). -/
theorem extraction_failure_handling :
    (∀ (extract : List ℚ → Option AudioProcessor.RawFeatures) (sr : ℚ)
        (audioData : List ℚ) (now : ℕ),
      AudioProcessor.extractFeatures false extract sr audioData now = none) ∧
    (∀ (sr : ℚ) (audioData : List ℚ) (now : ℕ),
      AudioProcessor.extractFeatures true (fun _ => none) sr audioData now =
        none) ∧
    (∀ (rf : RealFns) (s : AudioProcessor.SmoothSt) (timeData : List ℚ)
        (now : ℕ),
      AudioProcessor.processAudioTick rf s none timeData now =
        ⟨s, none, none⟩) ∧
    (∀ (extract : List ℚ → Option MusicAnalyzer.MeydaFeatures) (sr : ℚ),
      MusicAnalyzer.analyzeAudio extract [] sr =
        MusicAnalyzer.defaultMusicAnalysis) ∧
    (∀ (audioData : List ℚ) (sr : ℚ),
      MusicAnalyzer.analyzeAudio (fun _ => none) audioData sr =
        MusicAnalyzer.defaultMusicAnalysis) := by
  refine ⟨fun extract sr audioData now => ?_, fun sr audioData now => ?_,
    fun rf s timeData now => ?_, fun extract sr => ?_,
    fun audioData sr => ?_⟩
  · simp [AudioProcessor.extractFeatures]
  · simp [AudioProcessor.extractFeatures]
  · simp [AudioProcessor.processAudioTick]
  · simp [MusicAnalyzer.analyzeAudio]
  · by_cases h : audioData = [] <;>
      simp [MusicAnalyzer.analyzeAudio, h]

/-- Counterexample for C8: on empty input, `musicAnalyzer.analyzeAudio` does
not return an absent/"unavailable" value — its result is the concrete
zero-filled record (rms 0, all detection flags false, confidence 0, with
filler tempo 120 and key "C"). -/
theorem analyzeAudio_returns_default :
    MusicAnalyzer.analyzeAudio (fun _ => none) [] 44100 =
      MusicAnalyzer.defaultMusicAnalysis ∧
    MusicAnalyzer.defaultMusicAnalysis.rms = 0 ∧
    MusicAnalyzer.defaultMusicAnalysis.confidence = 0 ∧
    MusicAnalyzer.defaultMusicAnalysis.isMusicDetected = false ∧
    MusicAnalyzer.defaultMusicAnalysis.isVoice = false ∧
    MusicAnalyzer.defaultMusicAnalysis.tempo = 120 ∧
    MusicAnalyzer.defaultMusicAnalysis.key = "C" := by
  refine ⟨by simp [MusicAnalyzer.analyzeAudio], ?_, ?_, ?_, ?_, ?_, ?_⟩ <;>
    simp [MusicAnalyzer.defaultMusicAnalysis]

open MusicAnalyzer in
/-- C1 (amended): in `analyzeAudio`, voice detection takes priority over the
music heuristic, not the other way around — `isMusicDetected` requires that
no voice was detected, so a frame matching the voice heuristic is never
classified as music regardless of the accumulated music confidence; the music
confidence only raises the reported confidence on frames already classified
as music. -/
theorem voice_priority_over_music (f : MeydaFeatures) (audioData : List ℚ)
    (sr : ℚ) (hne : audioData ≠ []) :
    ((analyzeAudio (fun _ => some f) audioData sr).isVoice = true →
      (analyzeAudio (fun _ => some f) audioData sr).isMusicDetected = false) ∧
    (analyzeAudio (fun _ => some f) audioData sr).isMusicDetected =
      isMusicDetected (f.rms.getD 0) (f.spectralCentroid.getD 0)
        (f.spectralRolloff.getD 0) (f.zcr.getD 0) ∧
    ((analyzeAudio (fun _ => some f) audioData sr).isMusicDetected = true →
      (analyzeAudio (fun _ => some f) audioData sr).confidence =
        max (detectVoiceAndSinging (f.spectralCentroid.getD 0) (f.zcr.getD 0)
              (f.rms.getD 0)).confidence
          (musicConfidence (f.rms.getD 0) (f.spectralCentroid.getD 0)
            (f.spectralRolloff.getD 0) (f.zcr.getD 0))) := by
  have hv : (analyzeAudio (fun _ => some f) audioData sr).isVoice =
      (detectVoiceAndSinging (f.spectralCentroid.getD 0) (f.zcr.getD 0)
        (f.rms.getD 0)).isVoice := by
    simp [analyzeAudio, hne]
  have hm : (analyzeAudio (fun _ => some f) audioData sr).isMusicDetected =
      isMusicDetected (f.rms.getD 0) (f.spectralCentroid.getD 0)
        (f.spectralRolloff.getD 0) (f.zcr.getD 0) := by
    simp [analyzeAudio, hne]
  refine ⟨fun hvoice => ?_, hm, fun hmusic => ?_⟩
  · rw [hm]
    rw [hv] at hvoice
    simp [isMusicDetected, hvoice]
  · have : (analyzeAudio (fun _ => some f) audioData sr).confidence =
        (if isMusicDetected (f.rms.getD 0) (f.spectralCentroid.getD 0)
            (f.spectralRolloff.getD 0) (f.zcr.getD 0) then
          max (detectVoiceAndSinging (f.spectralCentroid.getD 0) (f.zcr.getD 0)
                (f.rms.getD 0)).confidence
            (musicConfidence (f.rms.getD 0) (f.spectralCentroid.getD 0)
              (f.spectralRolloff.getD 0) (f.zcr.getD 0))
        else (detectVoiceAndSinging (f.spectralCentroid.getD 0) (f.zcr.getD 0)
              (f.rms.getD 0)).confidence) := by
      simp [analyzeAudio, hne]
    rw [this]
    rw [hm] at hmusic
    rw [if_pos hmusic]

open MusicAnalyzer in
/-- Witness for C1 (amended): a concrete frame whose extracted features match
the voice heuristic, instantiating the theorem. -/
theorem voice_priority_over_music_witness :
    (analyzeAudio
        (fun _ => some ⟨some (1/10), some 1500, some 6000, some (1/10),
          some [], some []⟩)
        [1/2] 44100).isMusicDetected =
      isMusicDetected (1/10) 1500 6000 (1/10) :=
  (voice_priority_over_music
    ⟨some (1/10), some 1500, some 6000, some (1/10), some [], some []⟩
    [1/2] 44100 (by simp)).2.1

open MusicAnalyzer in
/-- Counterexample for C1: a frame that matches the voice heuristic and every
music sub-condition, with music confidence 1.0 — exceeding every fixed
confidence threshold in the repository (0.2, 0.3, 0.5) — is still classified
with `isMusicDetected = false`: voice wins, contradicting the claimed
music-over-voice priority. -/
theorem music_priority_counterexample :
    (analyzeAudio
        (fun _ => some ⟨some (1/10), some 1500, some 6000, some (1/10),
          some [], some []⟩)
        [1/2] 44100).isVoice = true ∧
    musicConfidence (1/10) 1500 6000 (1/10) = 1 ∧
    ((3:ℚ)/10 < 1) ∧
    (analyzeAudio
        (fun _ => some ⟨some (1/10), some 1500, some 6000, some (1/10),
          some [], some []⟩)
        [1/2] 44100).isMusicDetected = false := by
  have hv : (analyzeAudio
      (fun _ => some ⟨some (1/10), some 1500, some 6000, some (1/10),
        some [], some []⟩)
      [1/2] 44100).isVoice =
      (detectVoiceAndSinging 1500 (1/10) (1/10)).isVoice := by
    simp [analyzeAudio]
  have hm : (analyzeAudio
      (fun _ => some ⟨some (1/10), some 1500, some 6000, some (1/10),
        some [], some []⟩)
      [1/2] 44100).isMusicDetected =
      isMusicDetected (1/10) 1500 6000 (1/10) := by
    simp [analyzeAudio]
  refine ⟨?_, ?_, by norm_num, ?_⟩
  · rw [hv]
    norm_num [detectVoiceAndSinging]
  · norm_num [musicConfidence, hasMusicalSpectrum, hasMusicalEnergy,
      hasMusicalComplexity]
  · rw [hm]
    norm_num [isMusicDetected, detectVoiceAndSinging]

open AvatarStore CompanionEmotion in
/-- C2: two non-forced `setEmotion` requests with different candidates inside
the 3 s dwell window leave only the second candidate in the pending slot
(last-write-wins, not a queue), schedule its fire at the end of the window
(`lastEmotionChange + dwell`), and firing that timer applies the second
candidate; any forced request is applied immediately (its emotion and
timestamp take effect) regardless of elapsed time. -/
theorem setEmotion_last_write_wins (cur a b : CompanionEmotion)
    (anim : String) (p0 : Option CompanionEmotion) (t0 t1 t2 : ℕ)
    (isRecording : Bool) (s : AvatarSt) (now : ℕ) (e : CompanionEmotion)
    (h0 : 0 < t0) (h01 : t0 ≤ t1) (h12 : t1 ≤ t2)
    (hw2 : t2 < t0 + minEmotionDuration)
    (ha : a ≠ cur) (hb : b ≠ cur) (_hab : a ≠ b) :
    (setEmotion (setEmotion ⟨cur, anim, t0, none, p0⟩ t1 a false) t2 b
        false).pendingEmotion = some b ∧
    (setEmotion (setEmotion ⟨cur, anim, t0, none, p0⟩ t1 a false) t2 b
        false).emotionTimeout =
      some ⟨t0 + minEmotionDuration, .pendingFire b⟩ ∧
    (fireTimer
        (setEmotion (setEmotion ⟨cur, anim, t0, none, p0⟩ t1 a false) t2 b
          false) isRecording).emotion = b ∧
    (setEmotion s now e true).emotion = e ∧
    (setEmotion s now e true).lastEmotionChange = now := by
  have hw1 : t1 < t0 + minEmotionDuration := lt_of_le_of_lt h12 hw2
  have hforce : ∀ (s2 : AvatarSt) (n2 : ℕ) (e2 : CompanionEmotion),
      (setEmotion s2 n2 e2 true).emotion = e2 ∧
      (setEmotion s2 n2 e2 true).lastEmotionChange = n2 := by
    intro s2 n2 e2
    simp only [setEmotion]
    rw [if_neg (fun h => by simp at h)]
    rw [if_pos (show n2 - s2.lastEmotionChange ≥ minEmotionDuration ∨
      True ∨ s2.lastEmotionChange = 0 from Or.inr (Or.inl trivial))]
    exact ⟨rfl, rfl⟩
  have hs1 : setEmotion (⟨cur, anim, t0, none, p0⟩ : AvatarSt) t1 a false =
      ⟨cur, anim, t0, some ⟨t0 + minEmotionDuration, .pendingFire a⟩,
        some a⟩ := by
    simp only [setEmotion]
    rw [if_neg (fun h => ha h.1.symm)]
    rw [if_neg (by
      simp only [not_or]
      refine ⟨?_, by simp, by omega⟩
      simp only [minEmotionDuration] at hw1 ⊢
      omega)]
    simp only [AvatarSt.mk.injEq, Timer.mk.injEq, TimerKind.pendingFire.injEq,
      Option.some.injEq, minEmotionDuration, true_and, and_true]
    simp only [minEmotionDuration] at hw1 hw2
    omega
  have hs2 : setEmotion (⟨cur, anim, t0,
      some ⟨t0 + minEmotionDuration, .pendingFire a⟩, some a⟩ : AvatarSt) t2 b
        false =
      ⟨cur, anim, t0, some ⟨t0 + minEmotionDuration, .pendingFire b⟩,
        some b⟩ := by
    simp only [setEmotion]
    rw [if_neg (fun h => hb h.1.symm)]
    rw [if_neg (by
      simp only [not_or]
      refine ⟨?_, by simp, by omega⟩
      simp only [minEmotionDuration] at hw2 ⊢
      omega)]
    simp only [AvatarSt.mk.injEq, Timer.mk.injEq, TimerKind.pendingFire.injEq,
      Option.some.injEq, minEmotionDuration, true_and, and_true]
    simp only [minEmotionDuration] at hw1 hw2
    omega
  rw [hs1, hs2]
  refine ⟨rfl, rfl, ?_, (hforce s now e).1, (hforce s now e).2⟩
  simp only [fireTimer]
  exact (hforce _ _ _).1

open AvatarStore CompanionEmotion in
/-- Witness for C2: the theorem instantiated at concrete times 1, 2, 3 with
candidates `excited` then `thinking`. -/
theorem setEmotion_last_write_wins_witness :
    (setEmotion (setEmotion ⟨neutral, "idle", 1, none, none⟩ 2 excited false)
        3 thinking false).pendingEmotion = some thinking ∧
    (setEmotion (setEmotion ⟨neutral, "idle", 1, none, none⟩ 2 excited false)
        3 thinking false).emotionTimeout =
      some ⟨1 + minEmotionDuration, .pendingFire thinking⟩ ∧
    (fireTimer
        (setEmotion (setEmotion ⟨neutral, "idle", 1, none, none⟩ 2 excited
          false) 3 thinking false) false).emotion = thinking ∧
    (setEmotion ⟨neutral, "idle", 0, none, none⟩ 7 dancing true).emotion =
      dancing ∧
    (setEmotion ⟨neutral, "idle", 0, none, none⟩ 7 dancing
        true).lastEmotionChange = 7 :=
  setEmotion_last_write_wins neutral excited thinking "idle" none 1 2 3 false
    ⟨neutral, "idle", 0, none, none⟩ 7 dancing
    (by decide) (by decide) (by decide) (by decide)
    (by decide) (by decide) (by decide)

open AudioProcessor in
/-- Auxiliary: the stabilizer window is the suffix of the last five entries
of the extended history. -/
theorem windowAfter_drop_aux (h : List ℚ) (p : ℚ) (hlen : h.length ≤ 5) :
    windowAfter h p = (h ++ [p]).drop ((h ++ [p]).length - 5) := by
  simp only [windowAfter]
  split
  · next hgt =>
    have h1 : (h ++ [p]).length - 5 = 1 := by
      simp only [List.length_append, List.length_cons, List.length_nil] at hgt ⊢
      omega
    rw [h1, List.drop_one]
  · next hle =>
    have h1 : (h ++ [p]).length - 5 = 0 := by
      simp only [List.length_append, List.length_cons, List.length_nil] at hle ⊢
      omega
    rw [h1, List.drop_zero]

open AudioProcessor in
/-- Auxiliary: window entries come from the extended history. -/
theorem windowAfter_mem_aux (h : List ℚ) (p x : ℚ)
    (hx : x ∈ windowAfter h p) : x ∈ h ++ [p] := by
  simp only [windowAfter] at hx
  split at hx
  · exact List.mem_of_mem_tail hx
  · exact hx

open AudioProcessor in
/-- C3: the pitch stabilizer keeps a rolling window of at most the last 5
positive raw pitch estimates; on a tick with positive raw pitch it emits the
window median as the new stable pitch exactly when no stable value exists yet
or the median deviates from the last stable value by more than 10 percent
relative; and on a tick with raw pitch 0 both the window and the last stable
value are cleared.  (The raw per-tick pitch estimate is
`features.spectralCentroid`, carried into `analysis.pitch`.) -/
theorem pitch_stabilizer_spec (rf : RealFns) (s : SmoothSt)
    (f : MusicCompanion.AudioFeatures) (timeData : List ℚ) (now : ℕ) :
    (f.spectralCentroid = 0 →
      (processAudioTick rf s (some f) timeData now).state = ⟨[], none⟩) ∧
    (f.spectralCentroid > 0 → s.pitchHistory.length ≤ 5 →
      (processAudioTick rf s (some f) timeData now).state.pitchHistory =
        (s.pitchHistory ++ [f.spectralCentroid]).drop
          ((s.pitchHistory ++ [f.spectralCentroid]).length - 5) ∧
      (processAudioTick rf s (some f) timeData
        now).state.pitchHistory.length ≤ 5 ∧
      ((∀ x ∈ s.pitchHistory, 0 < x) →
        ∀ x ∈ (processAudioTick rf s (some f) timeData
          now).state.pitchHistory, 0 < x)) ∧
    (f.spectralCentroid > 0 →
      (s.lastStablePitch = none →
        (processAudioTick rf s (some f) timeData now).analysisEmitted.map
            AudioAnalysis.pitch =
          some (medianOf (windowAfter s.pitchHistory f.spectralCentroid)) ∧
        (processAudioTick rf s (some f) timeData now).state.lastStablePitch =
          some (medianOf (windowAfter s.pitchHistory f.spectralCentroid))) ∧
      (∀ last, s.lastStablePitch = some last →
        (|medianOf (windowAfter s.pitchHistory f.spectralCentroid) - last| /
            last > 1/10 →
          (processAudioTick rf s (some f) timeData now).analysisEmitted.map
              AudioAnalysis.pitch =
            some (medianOf (windowAfter s.pitchHistory f.spectralCentroid)) ∧
          (processAudioTick rf s (some f) timeData
            now).state.lastStablePitch =
            some (medianOf (windowAfter s.pitchHistory f.spectralCentroid))) ∧
        (¬(|medianOf (windowAfter s.pitchHistory f.spectralCentroid) - last| /
            last > 1/10) →
          (processAudioTick rf s (some f) timeData now).analysisEmitted =
            none ∧
          (processAudioTick rf s (some f) timeData
            now).state.lastStablePitch = some last))) := by
  have hpitch : (analyzeAudio rf timeData f now).pitch = f.spectralCentroid := by
    simp [analyzeAudio]
  refine ⟨fun h0 => ?_, fun hp hlen => ?_, fun hp => ⟨fun hnone => ?_, ?_⟩⟩
  · simp only [processAudioTick]
    rw [if_neg (by rw [hpitch, h0]; exact lt_irrefl 0)]
  · have hwin : (processAudioTick rf s (some f) timeData
        now).state.pitchHistory =
        windowAfter s.pitchHistory f.spectralCentroid := by
      simp only [processAudioTick]
      rw [if_pos (by rw [hpitch]; exact hp)]
      simp only [hpitch]
      rcases hsl : s.lastStablePitch with _ | last
      · rfl
      · dsimp only
        split <;> rfl
    refine ⟨?_, ?_, fun hpos x hx => ?_⟩
    · rw [hwin]
      exact windowAfter_drop_aux s.pitchHistory f.spectralCentroid hlen
    · rw [hwin, windowAfter_drop_aux s.pitchHistory f.spectralCentroid hlen]
      simp only [List.length_drop, List.length_append, List.length_cons,
        List.length_nil]
      omega
    · rw [hwin] at hx
      have := windowAfter_mem_aux s.pitchHistory f.spectralCentroid x hx
      rcases List.mem_append.mp this with h1 | h2
      · exact hpos x h1
      · simp only [List.mem_singleton] at h2
        rw [h2]
        exact hp
  · simp only [processAudioTick]
    rw [if_pos (by rw [hpitch]; exact hp)]
    simp only [hpitch, hnone]
    exact ⟨by simp, by simp⟩
  · intro last hsl
    simp only [processAudioTick]
    rw [if_pos (by rw [hpitch]; exact hp)]
    simp only [hpitch, hsl]
    refine ⟨fun hdev => ?_, fun hdev => ?_⟩
    · rw [if_pos hdev]
      exact ⟨by simp, by simp⟩
    · rw [if_neg hdev]
      exact ⟨by simp, by simp⟩

open AudioProcessor in
/-- Witness for C3: a full window of five 100 Hz estimates followed by a
50 Hz estimate drops the oldest entry. -/
theorem pitch_stabilizer_spec_witness :
    (processAudioTick zeroFns ⟨[100, 100, 100, 100, 100], some 100⟩
        (some ⟨1, 0, 50, 0, 0, [], [], 0⟩) [] 0).state.pitchHistory =
      (([100, 100, 100, 100, 100] : List ℚ) ++ [(50 : ℚ)]).drop
        ((([100, 100, 100, 100, 100] : List ℚ) ++ [(50 : ℚ)]).length - 5) :=
  ((pitch_stabilizer_spec zeroFns ⟨[100, 100, 100, 100, 100], some 100⟩
      ⟨1, 0, 50, 0, 0, [], [], 0⟩ [] 0).2.1 (by norm_num) (by norm_num)).1

open AudioProcessor in
/-- C7 (amended): on a tick whose feature extraction succeeds, the features
callback always fires, but an `AudioAnalysis` snapshot is pushed only when
the raw pitch is not positive, no stable pitch exists yet, or the window
median deviates from the last stable pitch by more than 10 percent — a tick
whose median stays within 10 percent of the stable pitch pushes nothing
(the claimed unconditional per-tick push is refuted by
`tick_no_emission_counterexample`). -/
theorem tick_emission_not_per_tick (rf : RealFns) (s : SmoothSt)
    (f : MusicCompanion.AudioFeatures) (timeData : List ℚ) (now : ℕ) :
    (processAudioTick rf s (some f) timeData now).featuresEmitted = some f ∧
    ((processAudioTick rf s (some f) timeData now).analysisEmitted = none ↔
      (f.spectralCentroid > 0 ∧ ∃ last, s.lastStablePitch = some last ∧
        ¬(|medianOf (windowAfter s.pitchHistory f.spectralCentroid) - last| /
            last > 1/10))) := by
  have hpitch : (analyzeAudio rf timeData f now).pitch = f.spectralCentroid := by
    simp [analyzeAudio]
  by_cases hp : f.spectralCentroid > 0
  · constructor
    · simp only [processAudioTick]
      rw [if_pos (by rw [hpitch]; exact hp)]
      rcases hsl : s.lastStablePitch with _ | last
      · rfl
      · dsimp only
        split <;> rfl
    · simp only [processAudioTick]
      rw [if_pos (by rw [hpitch]; exact hp)]
      simp only [hpitch]
      rcases hsl : s.lastStablePitch with _ | last
      · simp [hsl]
      · dsimp only
        split
        · next hdev =>
          simp only [Option.some_ne_none, false_iff, not_and]
          intro _
          rintro ⟨l2, hl2, hnd⟩
          rw [Option.some.injEq] at hl2
          exact hnd (hl2 ▸ hdev)
        · next hdev =>
          simp only [true_iff]
          exact ⟨hp, last, rfl, hdev⟩
  · constructor
    · simp only [processAudioTick]
      rw [if_neg (by rw [hpitch]; exact hp)]
    · simp only [processAudioTick]
      rw [if_neg (by rw [hpitch]; exact hp)]
      simp only [Option.some_ne_none, false_iff, not_and]
      intro h
      exact absurd h hp

open AudioProcessor in
/-- Witness for C7: concrete instantiation of the amended theorem. -/
theorem tick_emission_not_per_tick_witness :
    (processAudioTick zeroFns ⟨[], none⟩
        (some ⟨1, 0, 100, 0, 0, [], [], 0⟩) [] 0).featuresEmitted =
      some ⟨1, 0, 100, 0, 0, [], [], 0⟩ :=
  (tick_emission_not_per_tick zeroFns ⟨[], none⟩
    ⟨1, 0, 100, 0, 0, [], [], 0⟩ [] 0).1

open AudioProcessor in
/-- Counterexample for C7: two consecutive successful ticks with the same
positive raw pitch (100 Hz).  The second tick's median equals the stable
pitch, so no `AudioAnalysis` snapshot is pushed on that tick even though
extraction succeeded (the features callback still fires). -/
theorem tick_no_emission_counterexample :
    (processAudioTick zeroFns
        (processAudioTick zeroFns ⟨[], none⟩
          (some ⟨1, 0, 100, 0, 0, [], [], 0⟩) [] 0).state
        (some ⟨1, 0, 100, 0, 0, [], [], 0⟩) [] 0).analysisEmitted = none ∧
    (processAudioTick zeroFns
        (processAudioTick zeroFns ⟨[], none⟩
          (some ⟨1, 0, 100, 0, 0, [], [], 0⟩) [] 0).state
        (some ⟨1, 0, 100, 0, 0, [], [], 0⟩) [] 0).featuresEmitted =
      some ⟨1, 0, 100, 0, 0, [], [], 0⟩ := by
  have hpitch : ∀ now : ℕ,
      (analyzeAudio zeroFns [] (⟨1, 0, 100, 0, 0, [], [], 0⟩ :
        MusicCompanion.AudioFeatures) now).pitch = 100 := by
    intro now
    simp [analyzeAudio]
  have hstate : (processAudioTick zeroFns ⟨[], none⟩
      (some ⟨1, 0, 100, 0, 0, [], [], 0⟩) [] 0).state =
      ⟨[100], some 100⟩ := by
    simp only [processAudioTick]
    rw [if_pos (by rw [hpitch]; norm_num)]
    simp only [hpitch]
    norm_num [windowAfter, medianOf, sortAsc, List.insertionSort,
      List.orderedInsert]
  rw [hstate]
  have hmed : medianOf (windowAfter [100] 100) = 100 := by
    norm_num [windowAfter, medianOf, sortAsc, List.insertionSort,
      List.orderedInsert]
  constructor
  · simp only [processAudioTick]
    rw [if_pos (by rw [hpitch]; norm_num)]
    simp only [hpitch]
    rw [if_neg (by rw [hmed]; norm_num)]
  · simp only [processAudioTick]
    rw [if_pos (by rw [hpitch]; norm_num)]
    split <;> rfl

open MusicAnalyzer in
/-- Auxiliary: bitwise AND is idempotent. -/
theorem land_self_aux (n : ℕ) : n &&& n = n :=
  Nat.eq_of_testBit_eq fun i => by rw [Nat.testBit_land, Bool.and_self]

open MusicAnalyzer in
/-- Auxiliary: the `size & (size - 1) == 0` trick of `ensurePowerOfTwo`
recognises exactly the powers of two (on positive inputs). -/
theorem land_pred_eq_zero_iff (n : ℕ) (hn : 0 < n) :
    n &&& (n - 1) = 0 ↔ ∃ k, n = 2 ^ k := by
  induction n using Nat.strong_induction_on with
  | _ n ih =>
    rcases Nat.even_or_odd n with ⟨m, hm⟩ | ⟨m, hm⟩
    · have hm1 : 0 < m := by omega
      have h1 : n = Nat.bit false m := by
        simp only [Nat.bit_val, Bool.toNat_false]
        omega
      have h2 : n - 1 = Nat.bit true (m - 1) := by
        simp only [Nat.bit_val, Bool.toNat_true]
        omega
      have hland : n &&& (n - 1) = Nat.bit false (m &&& (m - 1)) := by
        rw [h2, h1, Nat.land_bit]
        exact rfl
      rw [hland, Nat.bit_eq_zero_iff]
      have hbv : Nat.bit false m = 2 * m := by
        simp [Nat.bit_val]
      constructor
      · rintro ⟨hz, -⟩
        obtain ⟨k, hk⟩ := (ih m (by omega) hm1).mp hz
        refine ⟨k + 1, ?_⟩
        rw [pow_succ]
        omega
      · rintro ⟨k, hk⟩
        refine ⟨?_, rfl⟩
        rcases k with _ | k2
        · simp only [pow_zero] at hk
          omega
        · have h2k : m = 2 ^ k2 := by
            rw [pow_succ] at hk
            omega
          exact (ih m (by omega) hm1).mpr ⟨k2, h2k⟩
    · rcases Nat.eq_zero_or_pos m with hm0 | hmp
      · have hn1 : n = 1 := by omega
        subst hn1
        constructor
        · intro _
          exact ⟨0, rfl⟩
        · intro _
          exact Nat.eq_of_testBit_eq fun i => by
            rw [Nat.testBit_land]
            simp
      · have h1 : n = Nat.bit true m := by
          simp only [Nat.bit_val, Bool.toNat_true]
          omega
        have h2 : n - 1 = Nat.bit false m := by
          simp only [Nat.bit_val, Bool.toNat_false]
          omega
        have hland : n &&& (n - 1) = Nat.bit false m := by
          rw [h2, h1, Nat.land_bit, land_self_aux]
          exact rfl
        rw [hland, Nat.bit_eq_zero_iff]
        constructor
        · rintro ⟨hz, -⟩
          omega
        · rintro ⟨k, hk⟩
          exfalso
          rcases k with _ | k2
          · simp only [pow_zero] at hk
            omega
          · rw [pow_succ] at hk
            omega

open MusicAnalyzer in
/-- Auxiliary: for `size ≤ 16384` the doubling loop started below `size`
returns a power-of-two multiple of its start that has reached `size` but not
doubled past it. -/
theorem ptLoop_spec (size : ℕ) (hsz : size ≤ 16384) :
    ∀ p : ℕ, 0 < p → p < size →
      (∃ j, ptLoop size p = p * 2 ^ j) ∧ size ≤ ptLoop size p ∧
        ptLoop size p < 2 * size := by
  have main : ∀ d p, 0 < p → p < size → size - p = d →
      (∃ j, ptLoop size p = p * 2 ^ j) ∧ size ≤ ptLoop size p ∧
        ptLoop size p < 2 * size := by
    intro d
    induction d using Nat.strong_induction_on with
    | _ d ih =>
      intro p hp hps hd
      rw [ptLoop, dif_pos ⟨hp, hps, lt_of_lt_of_le hps hsz⟩]
      by_cases h2 : 2 * p < size
      · obtain ⟨⟨j, hj⟩, hge, hlt⟩ :=
          ih (size - 2 * p) (by omega) (2 * p) (by omega) h2 rfl
        refine ⟨⟨j + 1, ?_⟩, hge, hlt⟩
        rw [hj, pow_succ]
        ring
      · rw [ptLoop, dif_neg (fun hc => h2 hc.2.1)]
        exact ⟨⟨1, by ring⟩, by omega, by omega⟩
  intro p hp hps
  exact main (size - p) p hp hps rfl

open MusicAnalyzer in
/-- C9: for every positive requested size, the resolved analysis buffer size
is a power of two no larger than 16384; and for every non-power-of-two size
not exceeding 16384 there are adjacent powers of two `2^k < size < 2^(k+1)`
such that the result is one of them and its absolute difference from the
requested size is the minimum of the two differences. -/
theorem ensurePowerOfTwo_resolves (size : ℕ) (hpos : 0 < size) :
    (∃ k, ensurePowerOfTwo size = 2 ^ k) ∧ ensurePowerOfTwo size ≤ 16384 ∧
    (size ≤ 16384 → (¬∃ k, size = 2 ^ k) →
      ∃ k, 2 ^ k < size ∧ size < 2 ^ (k + 1) ∧
        (ensurePowerOfTwo size = 2 ^ k ∨
          ensurePowerOfTwo size = 2 ^ (k + 1)) ∧
        |(ensurePowerOfTwo size : ℤ) - size| =
          min ((size : ℤ) - 2 ^ k) ((2 ^ (k + 1) : ℤ) - size)) := by
  by_cases h16 : size > 16384
  · have hval : ensurePowerOfTwo size = 16384 := by
      simp only [ensurePowerOfTwo]
      rw [if_neg (by omega), if_pos h16]
    refine ⟨⟨14, by rw [hval]; norm_num⟩, by rw [hval], fun hle _ => ?_⟩
    omega
  · by_cases hbit : size &&& (size - 1) = 0
    · have hval : ensurePowerOfTwo size = size := by
        simp only [ensurePowerOfTwo]
        rw [if_neg (by omega), if_neg h16, if_pos hbit]
      have hpow := (land_pred_eq_zero_iff size hpos).mp hbit
      refine ⟨by rw [hval]; exact hpow, by rw [hval]; omega, fun _ hnot => ?_⟩
      exact absurd hpow hnot
    · have hnot : ¬∃ k, size = 2 ^ k :=
        fun hc => hbit ((land_pred_eq_zero_iff size hpos).mpr hc)
      have hsz : size ≤ 16384 := by omega
      have hs1 : size ≠ 1 := fun hc => hnot ⟨0, by rw [hc]; norm_num⟩
      have hs2 : size ≠ 2 := fun hc => hnot ⟨1, by rw [hc]; norm_num⟩
      have hs3 : 3 ≤ size := by omega
      obtain ⟨⟨j, hj⟩, hge, hlt⟩ := ptLoop_spec size hsz 1 one_pos (by omega)
      rw [one_mul] at hj
      have hj1 : 1 ≤ j := by
        by_contra hc
        have : j = 0 := by omega
        rw [this] at hj
        simp only [pow_zero] at hj
        omega
      have hnext : ptLoop size 1 = 2 ^ (j - 1) * 2 := by
        rw [hj, ← pow_succ]
        congr 1
        omega
      have hprev : ptLoop size 1 / 2 = 2 ^ (j - 1) := by
        rw [hnext, Nat.mul_div_cancel _ (by norm_num)]
      have hprevlt : 2 ^ (j - 1) < size := by
        have h := hlt
        rw [hnext] at h
        omega
      have hsizelt : size < 2 ^ j := by
        rcases lt_or_eq_of_le hge with h | h
        · rw [← hj]; exact h
        · exact absurd ⟨j, by rw [← hj, ← h]⟩ hnot
      have hval : ensurePowerOfTwo size =
          (if size - 2 ^ (j - 1) < 2 ^ j - size then 2 ^ (j - 1)
           else 2 ^ j) := by
        simp only [ensurePowerOfTwo]
        rw [if_neg (by omega), if_neg h16, if_neg hbit]
        rw [hprev, hj]
      have hj16 : 2 ^ j ≤ 16384 := by
        have hlt2 : 2 ^ j < 2 ^ 15 := by
          rw [← hj]
          calc ptLoop size 1 < 2 * size := hlt
          _ ≤ 2 * 16384 := by omega
          _ = 2 ^ 15 := by norm_num
        have : j < 15 := (Nat.pow_lt_pow_iff_right (by norm_num)).mp hlt2
        calc 2 ^ j ≤ 2 ^ 14 := Nat.pow_le_pow_right (by norm_num) (by omega)
        _ = 16384 := by norm_num
      have hjeq : j - 1 + 1 = j := by omega
      refine ⟨?_, ?_, fun _ _ => ⟨j - 1, hprevlt, by rw [hjeq]; exact hsizelt,
        ?_, ?_⟩⟩
      · rw [hval]
        split
        · exact ⟨j - 1, rfl⟩
        · exact ⟨j, rfl⟩
      · rw [hval]
        split
        · calc 2 ^ (j - 1) ≤ 2 ^ j := Nat.pow_le_pow_right (by norm_num) (by omega)
          _ ≤ 16384 := hj16
        · exact hj16
      · rw [hval, hjeq]
        split
        · exact Or.inl rfl
        · exact Or.inr rfl
      · rw [hval, hjeq]
        have hcast1 : ((2 ^ (j - 1) : ℕ) : ℤ) = 2 ^ (j - 1) := by
          push_cast
          ring
        have hcast2 : ((2 ^ j : ℕ) : ℤ) = 2 ^ j := by
          push_cast
          ring
        have hc3 : (2 : ℤ) ^ j = 2 ^ (j - 1) * 2 := by
          rw [← pow_succ, hjeq]
        by_cases hcond : size - 2 ^ (j - 1) < 2 ^ j - size
        · rw [if_pos hcond, hcast1]
          rw [abs_of_nonpos (by omega), min_eq_left (by omega)]
          try omega
        · rw [if_neg hcond, hcast2]
          rw [abs_of_nonneg (by omega), min_eq_right (by omega)]
          try omega

open MusicAnalyzer in
/-- Witness for C9: the theorem applied at the concrete size 3. -/
theorem ensurePowerOfTwo_resolves_witness :
    ensurePowerOfTwo 3 ≤ 16384 :=
  (ensurePowerOfTwo_resolves 3 (by norm_num)).2.1

open Vad in
/-- Auxiliary: running the gate over a concatenation composes states and
concatenates events. -/
theorem vadRun_append (th : ℚ) (tmo : ℕ) (s : VadSt) (l1 l2 : List (ℕ × ℚ)) :
    vadRun th tmo s (l1 ++ l2) =
      ((vadRun th tmo (vadRun th tmo s l1).1 l2).1,
       (vadRun th tmo s l1).2 ++ (vadRun th tmo (vadRun th tmo s l1).1 l2).2) := by
  induction l1 generalizing s with
  | nil => simp [vadRun]
  | cons x rest ih =>
    simp only [List.cons_append, vadRun, List.append_eq]
    rw [ih]
    simp [List.append_assoc]

open Vad in
/-- Auxiliary: below-threshold samples leave the idle gate unchanged and emit
nothing. -/
theorem vadRun_lows_idle (th : ℚ) (tmo : ℕ) (samples : List (ℕ × ℚ))
    (hlow : ∀ x ∈ samples, ¬(x.2 > th)) :
    vadRun th tmo ⟨false, none⟩ samples = (⟨false, none⟩, []) := by
  induction samples with
  | nil => rfl
  | cons x rest ih =>
    have hx := hlow x (List.mem_cons_self x rest)
    have hstep : vadStep th tmo ⟨false, none⟩ x.1 x.2 = (⟨false, none⟩, []) := by
      simp [vadStep, vadFire, vadSample, hx]
    simp [vadRun, hstep, ih (fun y hy => hlow y (List.mem_cons_of_mem _ hy))]

open Vad in
/-- Auxiliary: above-threshold samples while recording (no timer armed) are
no-ops. -/
theorem vadRun_highs_active (th : ℚ) (tmo : ℕ) (samples : List (ℕ × ℚ))
    (hhigh : ∀ x ∈ samples, x.2 > th) :
    vadRun th tmo ⟨true, none⟩ samples = (⟨true, none⟩, []) := by
  induction samples with
  | nil => rfl
  | cons x rest ih =>
    have hx := hhigh x (List.mem_cons_self x rest)
    have hstep : vadStep th tmo ⟨true, none⟩ x.1 x.2 = (⟨true, none⟩, []) := by
      simp [vadStep, vadFire, vadSample, hx]
    simp [vadRun, hstep, ih (fun y hy => hhigh y (List.mem_cons_of_mem _ hy))]

open Vad in
/-- Auxiliary: below-threshold samples before the armed timer's fire time
leave the cooling state unchanged. -/
theorem vadRun_cooling_quiet (th : ℚ) (tmo : ℕ) (tf : ℕ)
    (samples : List (ℕ × ℚ))
    (hlow : ∀ x ∈ samples, ¬(x.2 > th)) (htime : ∀ x ∈ samples, x.1 < tf) :
    vadRun th tmo ⟨true, some tf⟩ samples = (⟨true, some tf⟩, []) := by
  induction samples with
  | nil => rfl
  | cons x rest ih =>
    have hx := hlow x (List.mem_cons_self x rest)
    have ht := htime x (List.mem_cons_self x rest)
    have hstep : vadStep th tmo ⟨true, some tf⟩ x.1 x.2 =
        (⟨true, some tf⟩, []) := by
      simp [vadStep, vadFire, vadSample, hx, Nat.not_le.mpr ht]
    simp [vadRun, hstep, ih (fun y hy => hlow y (List.mem_cons_of_mem _ hy))
      (fun y hy => htime y (List.mem_cons_of_mem _ hy))]

open Vad in
/-- Auxiliary: once observation reaches the armed fire time during silence,
the timer fires exactly one stop event, timestamped at its fire time. -/
theorem vadRun_cooling_fire (th : ℚ) (tmo : ℕ) (tf : ℕ)
    (samples : List (ℕ × ℚ))
    (hlow : ∀ x ∈ samples, ¬(x.2 > th)) (htime : ∃ x ∈ samples, tf ≤ x.1) :
    vadRun th tmo ⟨true, some tf⟩ samples =
      (⟨false, none⟩, [VadEvent.stop tf]) := by
  induction samples with
  | nil => simp at htime
  | cons x rest ih =>
    have hx := hlow x (List.mem_cons_self x rest)
    by_cases hxt : tf ≤ x.1
    · have hstep : vadStep th tmo ⟨true, some tf⟩ x.1 x.2 =
          (⟨false, none⟩, [VadEvent.stop tf]) := by
        simp [vadStep, vadFire, vadSample, hx, hxt]
      rw [vadRun, hstep]
      rw [vadRun_lows_idle th tmo rest
        (fun y hy => hlow y (List.mem_cons_of_mem _ hy))]
      simp
    · have hstep : vadStep th tmo ⟨true, some tf⟩ x.1 x.2 =
          (⟨true, some tf⟩, []) := by
        simp [vadStep, vadFire, vadSample, hx, hxt]
      have hrest : ∃ y ∈ rest, tf ≤ y.1 := by
        obtain ⟨y, hy, hty⟩ := htime
        rcases List.mem_cons.mp hy with rfl | hy2
        · exact absurd hty hxt
        · exact ⟨y, hy2, hty⟩
      rw [vadRun, hstep]
      rw [ih (fun y hy => hlow y (List.mem_cons_of_mem _ hy)) hrest]
      simp

open Vad in
/-- C5: for a volume sequence that rises above the activation threshold and
then stays below it, exactly one utterance boundary (one `start` and one
`stop`) is produced; the stop fires at `firstLowTime + timeout`, strictly
after every above-threshold sample plus the full timeout; and an
above-threshold sample arriving before the armed timer's fire time cancels
the pending boundary, resuming the active segment with no further events (no
re-triggered start).  The two call sites instantiate `(th, timeout)` as
`(0.15, 2000)` and `(25, 1500)`. -/
theorem utterance_boundary_hysteresis (th : ℚ) (timeout : ℕ)
    (lows1 : List (ℕ × ℚ)) (h0 : ℕ × ℚ) (hrest : List (ℕ × ℚ))
    (c0 : ℕ × ℚ) (crest : List (ℕ × ℚ))
    (cb : ℕ × ℚ) (crestb : List (ℕ × ℚ))
    (tc : ℕ) (vc : ℚ) (T : ℕ)
    (hl1 : ∀ x ∈ lows1, ¬(x.2 > th))
    (hh : ∀ x ∈ h0 :: hrest, x.2 > th)
    (hl2 : ∀ x ∈ c0 :: crest, ¬(x.2 > th))
    (horder : List.Pairwise (· < ·)
      ((lows1 ++ (h0 :: hrest) ++ (c0 :: crest)).map Prod.fst))
    (hT : c0.1 + timeout ≤ T)
    (hlb : ∀ x ∈ cb :: crestb, ¬(x.2 > th))
    (hlbtime : ∀ x ∈ crestb, x.1 < cb.1 + timeout)
    (hc1 : vc > th) (hc2 : tc < cb.1 + timeout) :
    (vadRun th timeout ⟨false, none⟩
        (lows1 ++ (h0 :: hrest) ++ (c0 :: crest))).2 ++
      (vadFlush (vadRun th timeout ⟨false, none⟩
        (lows1 ++ (h0 :: hrest) ++ (c0 :: crest))).1 T).2 =
      [VadEvent.start h0.1, VadEvent.stop (c0.1 + timeout)] ∧
    (∀ x ∈ h0 :: hrest, x.1 + timeout < c0.1 + timeout) ∧
    vadStep th timeout (vadRun th timeout ⟨false, none⟩
        (lows1 ++ (h0 :: hrest) ++ (cb :: crestb))).1 tc vc =
      (⟨true, none⟩, []) := by
  -- common prefix: lows1 leaves the idle state unchanged,
  -- the first high starts the segment, later highs are no-ops
  have hstart : ∀ rest2 : List (ℕ × ℚ),
      vadRun th timeout ⟨false, none⟩ (lows1 ++ (h0 :: hrest) ++ rest2) =
        ((vadRun th timeout ⟨true, none⟩ rest2).1,
         [VadEvent.start h0.1] ++ (vadRun th timeout ⟨true, none⟩ rest2).2) := by
    intro rest2
    rw [List.append_assoc,
      vadRun_append th timeout ⟨false, none⟩ lows1 ((h0 :: hrest) ++ rest2),
      vadRun_lows_idle th timeout lows1 hl1]
    have hs0 : vadStep th timeout ⟨false, none⟩ h0.1 h0.2 =
        (⟨true, none⟩, [VadEvent.start h0.1]) := by
      simp [vadStep, vadFire, vadSample, hh h0 (List.mem_cons_self h0 hrest)]
    simp only [List.cons_append, vadRun, hs0, List.append_eq]
    rw [vadRun_append th timeout ⟨true, none⟩ hrest rest2,
      vadRun_highs_active th timeout hrest
        (fun y hy => hh y (List.mem_cons_of_mem _ hy))]
    simp
  have harm : vadStep th timeout ⟨true, none⟩ c0.1 c0.2 =
      (⟨true, some (c0.1 + timeout)⟩, []) := by
    simp [vadStep, vadFire, vadSample, hl2 c0 (List.mem_cons_self c0 crest)]
  have harmb : vadStep th timeout ⟨true, none⟩ cb.1 cb.2 =
      (⟨true, some (cb.1 + timeout)⟩, []) := by
    simp [vadStep, vadFire, vadSample, hlb cb (List.mem_cons_self cb crestb)]
  refine ⟨?_, ?_, ?_⟩
  · rw [hstart (c0 :: crest)]
    rw [show vadRun th timeout ⟨true, none⟩ (c0 :: crest) =
        ((vadRun th timeout ⟨true, some (c0.1 + timeout)⟩ crest).1,
         (vadRun th timeout ⟨true, some (c0.1 + timeout)⟩ crest).2) from by
      rw [vadRun, harm]; simp]
    by_cases hall : ∀ x ∈ crest, x.1 < c0.1 + timeout
    · rw [vadRun_cooling_quiet th timeout (c0.1 + timeout) crest
        (fun y hy => hl2 y (List.mem_cons_of_mem _ hy)) hall]
      simp [vadFlush, vadFire, hT]
    · push_neg at hall
      obtain ⟨y, hy, hty⟩ := hall
      rw [vadRun_cooling_fire th timeout (c0.1 + timeout) crest
        (fun z hz => hl2 z (List.mem_cons_of_mem _ hz)) ⟨y, hy, hty⟩]
      simp [vadFlush, vadFire]
  · intro x hx
    have hmap : List.Pairwise (· < ·)
        ((lows1.map Prod.fst) ++ (((h0 :: hrest).map Prod.fst) ++
          ((c0 :: crest).map Prod.fst))) := by
      simpa [List.map_append, List.append_assoc] using horder
    have h2 := (List.pairwise_append.mp hmap).2.1
    have h3 := (List.pairwise_append.mp h2).2.2
    have : x.1 < c0.1 := by
      refine h3 x.1 ?_ c0.1 ?_
      · exact List.mem_map_of_mem Prod.fst hx
      · exact List.mem_map_of_mem Prod.fst (List.mem_cons_self c0 crest)
    omega
  · rw [hstart (cb :: crestb)]
    rw [show vadRun th timeout ⟨true, none⟩ (cb :: crestb) =
        ((vadRun th timeout ⟨true, some (cb.1 + timeout)⟩ crestb).1,
         (vadRun th timeout ⟨true, some (cb.1 + timeout)⟩ crestb).2) from by
      rw [vadRun, harmb]; simp]
    rw [vadRun_cooling_quiet th timeout (cb.1 + timeout) crestb
      (fun y hy => hlb y (List.mem_cons_of_mem _ hy)) hlbtime]
    simp [vadStep, vadFire, vadSample, hc1, Nat.not_le.mpr hc2]


open Vad in
/-- Witness for C5: low at t=0, highs at t=100 and 200, lows from t=300
onward; the single boundary fires at t=2300, and in the cancellation run a
high sample at t=2299 (one tick before the fire time) cancels the timer. -/
theorem utterance_boundary_hysteresis_witness :
    (vadRun (3/20) 2000 ⟨false, none⟩
        ([((0 : ℕ), (1 : ℚ)/10)] ++ (((100 : ℕ), (1 : ℚ)/5) ::
          [((200 : ℕ), (1 : ℚ)/5)]) ++ (((300 : ℕ), (1 : ℚ)/10) ::
          [((2500 : ℕ), (1 : ℚ)/10)]))).2 ++
      (vadFlush (vadRun (3/20) 2000 ⟨false, none⟩
        ([((0 : ℕ), (1 : ℚ)/10)] ++ (((100 : ℕ), (1 : ℚ)/5) ::
          [((200 : ℕ), (1 : ℚ)/5)]) ++ (((300 : ℕ), (1 : ℚ)/10) ::
          [((2500 : ℕ), (1 : ℚ)/10)]))).1 2300).2 =
      [VadEvent.start 100, VadEvent.stop (300 + 2000)] ∧
    vadStep (3/20) 2000 (vadRun (3/20) 2000 ⟨false, none⟩
        ([((0 : ℕ), (1 : ℚ)/10)] ++ (((100 : ℕ), (1 : ℚ)/5) ::
          [((200 : ℕ), (1 : ℚ)/5)]) ++ (((300 : ℕ), (1 : ℚ)/10) ::
          [((1000 : ℕ), (1 : ℚ)/10)]))).1 2299 ((1 : ℚ)/5) =
      (⟨true, none⟩, []) := by
  have H := utterance_boundary_hysteresis (3/20) 2000
    [((0 : ℕ), (1 : ℚ)/10)] ((100 : ℕ), (1 : ℚ)/5) [((200 : ℕ), (1 : ℚ)/5)]
    ((300 : ℕ), (1 : ℚ)/10) [((2500 : ℕ), (1 : ℚ)/10)]
    ((300 : ℕ), (1 : ℚ)/10) [((1000 : ℕ), (1 : ℚ)/10)]
    2299 ((1 : ℚ)/5) 2300
    (by norm_num) (by norm_num) (by norm_num) (by norm_num) (by norm_num)
    (by norm_num) (by norm_num) (by norm_num) (by norm_num)
  exact ⟨H.1, H.2.2⟩

open AudioProcessor in
/-- Witness for C6: the amended theorem applied at an all-zero frame,
discharging the zero-magnitude hypothesis there. -/
theorem spectralBandwidth_firstMoment_witness :
    calculateSpectralBandwidth 4 [0, 0, 0, 0] = 0 :=
  (spectralBandwidth_firstMoment 4 [0, 0, 0, 0]).2
    (by norm_num [totalMagnitude, nyquistBinCount, List.range_succ])

open MusicCompanion in
/-- Witness for C10: a concrete voice-matching feature set yields overall
music type `mixed`. -/
theorem analyzePerformance_never_vocal_witness :
    (analyzePerformance zeroFns ⟨[], []⟩ []
        ⟨1, 1/10, 1000, 0, 0, [0], [], 0⟩ 44100).1.overall.musicType =
      MusicType.mixed :=
  (analyzePerformance_never_vocal zeroFns ⟨[], []⟩ []
    ⟨1, 1/10, 1000, 0, 0, [0], [], 0⟩ 44100).2.1
    (by norm_num [analyzePerformance, analyzeVoice, detectVoice])

end Claims
